import Mathlib

/-!
# Service configuration of the tunnelling server

A shallow embedding of `src/common/config/services.cpp` (class
`ssf::config::Services`): the seven per-service records, the section updaters
called by `Services::Update`, the global gateway override
`Services::SetGatewayPorts`, the copy constructor and the two diagnostic
members `Services::Log` and `Services::LogServiceStatus`; and a model of the
registry of `SSFServer` (`src/core/server/server.h`), whose member functions
are declared there and described by the specification.

The property tree, its boolean stream translator and `boost::trim` come from
Boost.  The tree is embedded as data; the two locale-dependent facilities
(boolean translation of a node's data, whitespace classification) are taken as
a parameter `Locale`, so every theorem holds for whatever the library does.
A `std::string` is embedded as a `String`, read character by character.

A member function that mutates the object and may throw is a function from the
state before to an `Exec`: the state after, tagged with whether the call
returned or an exception left it.  The debug log lines of the updaters do not
touch the object and are left out.
-/

namespace ssf
namespace config

/-! ## Property tree -/

/-- A property tree node: its own data string and its ordered children, each
under a key (`boost::property_tree::ptree`). -/
inductive PTree where
  | node (data : String) (children : List (String × PTree))

/-- The data string of a node (`ptree::data()`). -/
def PTree.data : PTree → String
  | .node d _ => d

/-- The ordered (key, child) pairs of a node. -/
def PTree.children : PTree → List (String × PTree)
  | .node _ cs => cs

/-- The lookup `get_child_optional(key)` for a key without path separator, the
only form the source uses: the first child stored under `key`, if any.  A node
may hold several children under one key; the lookup sees one of them only. -/
def PTree.get_child_optional (pt : PTree) (key : String) : Option PTree :=
  (pt.children.find? (fun kv => kv.1 == key)).map Prod.snd

/-- The exception `ptree_bad_data` raised by `get_value<bool>()` when the data
of a node does not translate to a boolean; it carries the offending data. -/
structure ptree_bad_data where
  what : String
  deriving DecidableEq, Repr

/-- The locale-dependent library facilities the source relies on:
`get_bool` is the stream translator behind `get_value<bool>()` (`none` when the
data is not a boolean), `is_space` the character classification behind
`boost::trim`. -/
structure Locale where
  get_bool : String → Option Bool
  is_space : Char → Bool

/-- The call `get_value<bool>()`: the translated data, or `ptree_bad_data`. -/
def PTree.get_value_bool (L : Locale) (pt : PTree) : Except ptree_bad_data Bool :=
  match L.get_bool pt.data with
  | some b => .ok b
  | none => .error ⟨pt.data⟩

/-! ## String trimming -/

/-- The algorithm `boost::trim_left_if` on the characters of a string. -/
def trim_left_if (p : Char → Bool) (cs : List Char) : List Char :=
  cs.dropWhile p

/-- The algorithm `boost::trim_right_if` on the characters of a string. -/
def trim_right_if (p : Char → Bool) (cs : List Char) : List Char :=
  (cs.reverse.dropWhile p).reverse

/-- The call `boost::trim(s)`: `trim_right_if` then `trim_left_if` with the
locale's space classification. -/
def trim (L : Locale) (s : String) : String :=
  ⟨trim_left_if L.is_space (trim_right_if L.is_space s.data)⟩

/-! ## Service records -/

/-- Modelled from the spec: the record class of a service without parameters
(datagram_forwarder, stream_forwarder, socks, copy), declared in headers that
are not part of the sources at hand; it carries `enabled` only. -/
structure ServiceConfig where
  enabled : Bool
  deriving DecidableEq, Repr

/-- Modelled from the spec: the record class of the two listener services,
declared in headers that are not part of the sources at hand; it carries
`enabled` and `gateway_ports`. -/
structure ListenerConfig where
  enabled : Bool
  gateway_ports : Bool
  deriving DecidableEq, Repr

/-- Modelled from the spec: the record class of the shell service, declared in
headers that are not part of the sources at hand; it carries `enabled`, `path`
and `args`. -/
structure ShellConfig where
  enabled : Bool
  path : String
  args : String
  deriving DecidableEq, Repr

/-- The setter `set_enabled` of a plain service record. -/
def ServiceConfig.set_enabled (r : ServiceConfig) (b : Bool) : ServiceConfig :=
  { r with enabled := b }

/-- The setter `set_enabled` of a listener record. -/
def ListenerConfig.set_enabled (r : ListenerConfig) (b : Bool) : ListenerConfig :=
  { r with enabled := b }

/-- The setter `set_gateway_ports` of a listener record. -/
def ListenerConfig.set_gateway_ports (r : ListenerConfig) (g : Bool) : ListenerConfig :=
  { r with gateway_ports := g }

/-- The setter `set_enabled` of the shell record. -/
def ShellConfig.set_enabled (r : ShellConfig) (b : Bool) : ShellConfig :=
  { r with enabled := b }

/-- The setter `set_path` of the shell record. -/
def ShellConfig.set_path (r : ShellConfig) (p : String) : ShellConfig :=
  { r with path := p }

/-- The setter `set_args` of the shell record. -/
def ShellConfig.set_args (r : ShellConfig) (a : String) : ShellConfig :=
  { r with args := a }

/-- The members of class `Services`, in declaration order of the constructor's
initialiser list. -/
structure Services where
  datagram_forwarder_ : ServiceConfig
  datagram_listener_ : ListenerConfig
  copy_ : ServiceConfig
  shell_ : ShellConfig
  socks_ : ServiceConfig
  stream_forwarder_ : ServiceConfig
  stream_listener_ : ListenerConfig
  deriving DecidableEq, Repr

/-! ## Execution outcomes -/

/-- The outcome of a member function that mutates the object and may throw:
the object's state when it returned (`done`) or when the exception left it
(`thrown`). -/
inductive Exec (σ : Type) where
  | done (s : σ)
  | thrown (s : σ) (e : ptree_bad_data)
  deriving DecidableEq, Repr

/-- The object's state after the call, whether it returned or threw. -/
def Exec.state {σ : Type} : Exec σ → σ
  | .done s => s
  | .thrown s _ => s

/-- Sequencing of two statements: the second runs only if the first returned. -/
def Exec.andThen {σ : Type} (x : Exec σ) (f : σ → Exec σ) : Exec σ :=
  match x with
  | .done s => f s
  | .thrown s e => .thrown s e

/-! ## Services -/

/-- The copy constructor `Services::Services(const Services&)`: each member is
copy-constructed from the corresponding member of the argument. -/
def Services.copy (services : Services) : Services :=
  { datagram_forwarder_ := services.datagram_forwarder_
    datagram_listener_ := services.datagram_listener_
    copy_ := services.copy_
    shell_ := services.shell_
    socks_ := services.socks_
    stream_forwarder_ := services.stream_forwarder_
    stream_listener_ := services.stream_listener_ }

/-- The static helper `Services::IsServiceEnabled`. -/
def IsServiceEnabled (L : Locale) (service_ptree : PTree) (default_value : Bool) :
    Except ptree_bad_data Bool :=
  match service_ptree.get_child_optional "enable" with
  | some enable_prop => enable_prop.get_value_bool L
  | none => .ok default_value

/-- The member `Services::UpdateDatagramForwarder` (debug logging left out). -/
def UpdateDatagramForwarder (L : Locale) (self : Services) (pt : PTree) : Exec Services :=
  match pt.get_child_optional "datagram_forwarder" with
  | none => .done self
  | some optional =>
    match IsServiceEnabled L optional self.datagram_forwarder_.enabled with
    | .error e => .thrown self e
    | .ok b =>
      .done { self with datagram_forwarder_ := self.datagram_forwarder_.set_enabled b }

/-- The member `Services::UpdateDatagramListener` (debug logging left out). -/
def UpdateDatagramListener (L : Locale) (self : Services) (pt : PTree) : Exec Services :=
  match pt.get_child_optional "datagram_listener" with
  | none => .done self
  | some datagram_listener_prop =>
    match IsServiceEnabled L datagram_listener_prop self.datagram_listener_.enabled with
    | .error e => .thrown self e
    | .ok b =>
      let self1 := { self with datagram_listener_ := self.datagram_listener_.set_enabled b }
      match datagram_listener_prop.get_child_optional "gateway_ports" with
      | none => .done self1
      | some gateway_ports =>
        match gateway_ports.get_value_bool L with
        | .error e => .thrown self1 e
        | .ok g =>
          .done { self1 with
                  datagram_listener_ := self1.datagram_listener_.set_gateway_ports g }

/-- The member `Services::UpdateCopy` (debug logging left out). -/
def UpdateCopy (L : Locale) (self : Services) (pt : PTree) : Exec Services :=
  match pt.get_child_optional "copy" with
  | none => .done self
  | some copy_optional =>
    match IsServiceEnabled L copy_optional self.copy_.enabled with
    | .error e => .thrown self e
    | .ok b => .done { self with copy_ := self.copy_.set_enabled b }

/-- The member `Services::UpdateShell` (debug logging left out). -/
def UpdateShell (L : Locale) (self : Services) (pt : PTree) : Exec Services :=
  match pt.get_child_optional "shell" with
  | none => .done self
  | some shell_prop =>
    match IsServiceEnabled L shell_prop self.shell_.enabled with
    | .error e => .thrown self e
    | .ok b =>
      let self1 := { self with shell_ := self.shell_.set_enabled b }
      let self2 :=
        match shell_prop.get_child_optional "path" with
        | some opt_path => { self1 with shell_ := self1.shell_.set_path (trim L opt_path.data) }
        | none => self1
      let self3 :=
        match shell_prop.get_child_optional "args" with
        | some opt_args => { self2 with shell_ := self2.shell_.set_args (trim L opt_args.data) }
        | none => self2
      .done self3

/-- The member `Services::UpdateSocks` (debug logging left out). -/
def UpdateSocks (L : Locale) (self : Services) (pt : PTree) : Exec Services :=
  match pt.get_child_optional "socks" with
  | none => .done self
  | some socks_optional =>
    match IsServiceEnabled L socks_optional self.socks_.enabled with
    | .error e => .thrown self e
    | .ok b => .done { self with socks_ := self.socks_.set_enabled b }

/-- The member `Services::UpdateStreamForwarder` (debug logging left out). -/
def UpdateStreamForwarder (L : Locale) (self : Services) (pt : PTree) : Exec Services :=
  match pt.get_child_optional "stream_forwarder" with
  | none => .done self
  | some optional =>
    match IsServiceEnabled L optional self.stream_forwarder_.enabled with
    | .error e => .thrown self e
    | .ok b =>
      .done { self with stream_forwarder_ := self.stream_forwarder_.set_enabled b }

/-- The member `Services::UpdateStreamListener` (debug logging left out). -/
def UpdateStreamListener (L : Locale) (self : Services) (pt : PTree) : Exec Services :=
  match pt.get_child_optional "stream_listener" with
  | none => .done self
  | some stream_listener_prop =>
    match IsServiceEnabled L stream_listener_prop self.stream_listener_.enabled with
    | .error e => .thrown self e
    | .ok b =>
      let self1 := { self with stream_listener_ := self.stream_listener_.set_enabled b }
      match stream_listener_prop.get_child_optional "gateway_ports" with
      | none => .done self1
      | some gateway_ports =>
        match gateway_ports.get_value_bool L with
        | .error e => .thrown self1 e
        | .ok g =>
          .done { self1 with
                  stream_listener_ := self1.stream_listener_.set_gateway_ports g }

/-- The member `Services::Update`: the seven section updaters in source order;
an exception leaves the object as the throwing updater left it. -/
def Update (L : Locale) (self : Services) (pt : PTree) : Exec Services :=
  ((((((UpdateDatagramForwarder L self pt).andThen
    (fun s => UpdateDatagramListener L s pt)).andThen
    (fun s => UpdateStreamForwarder L s pt)).andThen
    (fun s => UpdateStreamListener L s pt)).andThen
    (fun s => UpdateShell L s pt)).andThen
    (fun s => UpdateSocks L s pt)).andThen
    (fun s => UpdateCopy L s pt)

/-- The member `Services::SetGatewayPorts`. -/
def SetGatewayPorts (self : Services) (gateway_ports : Bool) : Services :=
  let self1 := { self with
                 datagram_listener_ := self.datagram_listener_.set_gateway_ports gateway_ports }
  { self1 with stream_listener_ := self1.stream_listener_.set_gateway_ports gateway_ports }

/-! ## Diagnostics -/

/-- The severities of the `SSF_LOG` calls of `Services::Log` and
`Services::LogServiceStatus`. -/
inductive LogLevel where
  | info
  | warn
  deriving DecidableEq, Repr

/-- One emitted log line: the channel, severity, format string and format
arguments of an `SSF_LOG` call.  `SSF_LOG` belongs to the logging library; a
call is recorded as made, the placeholder of the format left unexpanded. -/
structure LogLine where
  channel : String
  level : LogLevel
  format : String
  args : List String
  deriving DecidableEq, Repr

/-- The call `SSF_LOG(channel, level, format, args...)`. -/
def SSF_LOG (channel : String) (level : LogLevel) (format : String) (args : List String) :
    LogLine :=
  { channel := channel, level := level, format := format, args := args }

/-- Modelled from the spec: the accessor `process()` declared in
`common/config/services.h`, which is not among the sources; it returns the
shell record, the only one carrying `path` and `args`. -/
def Services.process (self : Services) : ShellConfig :=
  self.shell_

/-- The member `Services::Log`: a `const` member, so the object comes back as
it was, together with the lines emitted in order. -/
def Log (self : Services) : Exec Services × List LogLine :=
  let out1 : List LogLine :=
    if self.datagram_listener_.enabled then
      if self.datagram_listener_.gateway_ports then
        [SSF_LOG "config" .warn "[microservices][datagram_listener] gateway ports allowed" []]
      else []
    else []
  let out2 : List LogLine :=
    if self.stream_listener_.enabled then
      if self.stream_listener_.gateway_ports then
        [SSF_LOG "config" .warn "[microservices][stream_listener] gateway ports allowed" []]
      else []
    else []
  let out3 : List LogLine :=
    if self.shell_.enabled then
      let args := self.process.args
      SSF_LOG "config" .info "[microservices][shell] path: <\x7b\x7d>" [self.process.path] ::
        (if args ≠ "" then
          [SSF_LOG "config" .info "[microservices][shell] args: <\x7b\x7d>" [args]]
        else [])
    else []
  (.done self, out1 ++ out2 ++ out3)

/-- The text chosen by `(enabled ? "On" : "Off")`. -/
def on_off (enabled : Bool) : String :=
  if enabled then "On" else "Off"

/-- The member `Services::LogServiceStatus`: a `const` member emitting one line
per service, in source order and with the source's format strings. -/
def LogServiceStatus (self : Services) : Exec Services × List LogLine :=
  (.done self,
   [SSF_LOG "status" .info "[microservices][datagram_forwarder]: \x7b\x7d"
      [on_off self.datagram_forwarder_.enabled],
    SSF_LOG "status" .info "[microservices][datagram_listener]: \x7b\x7d"
      [on_off self.datagram_listener_.enabled],
    SSF_LOG "status" .info "[microservices][stream_forwarder]: \x7b\x7d"
      [on_off self.stream_forwarder_.enabled],
    SSF_LOG "status" .info "[microservices]][stream_listener]: \x7b\x7d"
      [on_off self.stream_listener_.enabled],
    SSF_LOG "status" .info "[microservices][copy]: \x7b\x7d"
      [on_off self.copy_.enabled],
    SSF_LOG "status" .info "[microservices][shell]: \x7b\x7d"
      [on_off self.shell_.enabled],
    SSF_LOG "status" .info "[microservices][socks]: \x7b\x7d"
      [on_off self.socks_.enabled]])

/-! ## Calls on a `Services` object -/

/-- A mutating call on a `Services` object. -/
inductive Call where
  | Update (pt : PTree)
  | SetGatewayPorts (gateway_ports : Bool)

/-- A call made on a `Services` object. -/
def Call.run (L : Locale) (k : Call) (self : Services) : Exec Services :=
  match k with
  | .Update pt => ssf.config.Update L self pt
  | .SetGatewayPorts g => .done (ssf.config.SetGatewayPorts self g)

/-- A sequence of calls made on a `Services` object, in order; an exception
ends the sequence. -/
def run_calls (L : Locale) (self : Services) : List Call → Exec Services
  | [] => .done self
  | k :: ks => (k.run L self).andThen (fun s => run_calls L s ks)

/-! ## Views used to state the properties -/

/-- The seven service kinds. -/
inductive ServiceName where
  | datagram_forwarder
  | datagram_listener
  | stream_forwarder
  | stream_listener
  | shell
  | socks
  | copy
  deriving DecidableEq, Repr

/-- The section key under which `Services::Update` looks a service up. -/
def ServiceName.key : ServiceName → String
  | .datagram_forwarder => "datagram_forwarder"
  | .datagram_listener => "datagram_listener"
  | .stream_forwarder => "stream_forwarder"
  | .stream_listener => "stream_listener"
  | .shell => "shell"
  | .socks => "socks"
  | .copy => "copy"

/-- The two listener services, the only ones with a `gateway_ports` flag. -/
def ServiceName.is_listener : ServiceName → Bool
  | .datagram_listener => true
  | .stream_listener => true
  | _ => false

/-- A service record in the shape of the data model: `enabled` and the
optional service-specific fields. -/
structure Record where
  enabled : Bool
  gateway_ports : Option Bool
  path : Option String
  args : Option String
  deriving DecidableEq, Repr

/-- The read accessor of a service: its member's record. -/
def Services.record (s : Services) : ServiceName → Record
  | .datagram_forwarder => ⟨s.datagram_forwarder_.enabled, none, none, none⟩
  | .datagram_listener =>
    ⟨s.datagram_listener_.enabled, some s.datagram_listener_.gateway_ports, none, none⟩
  | .stream_forwarder => ⟨s.stream_forwarder_.enabled, none, none, none⟩
  | .stream_listener =>
    ⟨s.stream_listener_.enabled, some s.stream_listener_.gateway_ports, none, none⟩
  | .shell => ⟨s.shell_.enabled, none, some s.shell_.path, some s.shell_.args⟩
  | .socks => ⟨s.socks_.enabled, none, none, none⟩
  | .copy => ⟨s.copy_.enabled, none, none, none⟩

/-- The node under `key` inside section `sec` of a configuration, when both the
section and the key are there. -/
def PTree.field (pt : PTree) (sec key : String) : Option PTree :=
  (pt.get_child_optional sec).bind (fun p => p.get_child_optional key)

/-- A boolean field is well typed when it is missing or translates. -/
def Locale.typed (L : Locale) (v : Option PTree) : Bool :=
  match v with
  | none => true
  | some n => (L.get_bool n.data).isSome

/-- The merged value of a boolean field: the translated value when the field
is there, the previous value otherwise. -/
def Locale.mergeBool (L : Locale) (v : Option PTree) (old : Bool) : Bool :=
  match v with
  | none => old
  | some n => (L.get_bool n.data).getD old

/-- The merged value of a string field: the trimmed data when the field is
there, the previous value otherwise. -/
def Locale.mergeString (L : Locale) (v : Option PTree) (old : String) : String :=
  match v with
  | none => old
  | some n => trim L n.data

/-- All nine boolean fields read by `Update` are well typed. -/
def wellTyped (L : Locale) (pt : PTree) : Prop :=
  L.typed (pt.field "datagram_forwarder" "enable") = true ∧
  L.typed (pt.field "datagram_listener" "enable") = true ∧
  L.typed (pt.field "datagram_listener" "gateway_ports") = true ∧
  L.typed (pt.field "stream_forwarder" "enable") = true ∧
  L.typed (pt.field "stream_listener" "enable") = true ∧
  L.typed (pt.field "stream_listener" "gateway_ports") = true ∧
  L.typed (pt.field "shell" "enable") = true ∧
  L.typed (pt.field "socks" "enable") = true ∧
  L.typed (pt.field "copy" "enable") = true

instance (L : Locale) (pt : PTree) : Decidable (wellTyped L pt) := by
  unfold wellTyped
  infer_instance

/-- The field-by-field merge of a configuration into a state. -/
def merged (L : Locale) (s : Services) (pt : PTree) : Services :=
  { datagram_forwarder_ :=
      ⟨L.mergeBool (pt.field "datagram_forwarder" "enable") s.datagram_forwarder_.enabled⟩
    datagram_listener_ :=
      ⟨L.mergeBool (pt.field "datagram_listener" "enable") s.datagram_listener_.enabled,
       L.mergeBool (pt.field "datagram_listener" "gateway_ports")
         s.datagram_listener_.gateway_ports⟩
    copy_ := ⟨L.mergeBool (pt.field "copy" "enable") s.copy_.enabled⟩
    shell_ :=
      ⟨L.mergeBool (pt.field "shell" "enable") s.shell_.enabled,
       L.mergeString (pt.field "shell" "path") s.shell_.path,
       L.mergeString (pt.field "shell" "args") s.shell_.args⟩
    socks_ := ⟨L.mergeBool (pt.field "socks" "enable") s.socks_.enabled⟩
    stream_forwarder_ :=
      ⟨L.mergeBool (pt.field "stream_forwarder" "enable") s.stream_forwarder_.enabled⟩
    stream_listener_ :=
      ⟨L.mergeBool (pt.field "stream_listener" "enable") s.stream_listener_.enabled,
       L.mergeBool (pt.field "stream_listener" "gateway_ports")
         s.stream_listener_.gateway_ports⟩ }

/-- The (section, key) pairs `Update` reads: `enable` for the seven services,
`gateway_ports` for the two listeners, `path` and `args` for the shell. -/
def readFields : List (String × String) :=
  [("datagram_forwarder", "enable"),
   ("datagram_listener", "enable"), ("datagram_listener", "gateway_ports"),
   ("stream_forwarder", "enable"),
   ("stream_listener", "enable"), ("stream_listener", "gateway_ports"),
   ("shell", "enable"), ("shell", "path"), ("shell", "args"),
   ("socks", "enable"),
   ("copy", "enable")]

/-- A configuration specifies a field when its section has the key. -/
def PTree.specifies (pt : PTree) (f : String × String) : Bool :=
  (pt.field f.1 f.2).isSome

/-- A configuration has no `gateway_ports` key in either listener section. -/
def PTree.noGatewayKeys (pt : PTree) : Prop :=
  pt.specifies ("datagram_listener", "gateway_ports") = false ∧
  pt.specifies ("stream_listener", "gateway_ports") = false

instance (pt : PTree) : Decidable pt.noGatewayKeys := by
  unfold PTree.noGatewayKeys
  infer_instance

/-- The wording of the specification for trimming: `r` is `p` with its leading
and trailing whitespace removed and the interior unchanged, that is, `p` is `r`
between two all-whitespace runs and `r` neither begins nor ends with a
whitespace character. -/
def IsTrimOf (L : Locale) (p r : String) : Prop :=
  ∃ pre post : List Char, p.data = pre ++ r.data ++ post ∧
    (∀ ch ∈ pre, L.is_space ch = true) ∧ (∀ ch ∈ post, L.is_space ch = true) ∧
    (∀ ch, r.data.head? = some ch → L.is_space ch = false) ∧
    (∀ ch, r.data.getLast? = some ch → L.is_space ch = false)

/-- The order in which `LogServiceStatus` reports the services. -/
def statusOrder : List ServiceName :=
  [.datagram_forwarder, .datagram_listener, .stream_forwarder, .stream_listener,
   .copy, .shell, .socks]

/-- The format string of the status line of each service, as in the source. -/
def ServiceName.status_format : ServiceName → String
  | .datagram_forwarder => "[microservices][datagram_forwarder]: \x7b\x7d"
  | .datagram_listener => "[microservices][datagram_listener]: \x7b\x7d"
  | .stream_forwarder => "[microservices][stream_forwarder]: \x7b\x7d"
  | .stream_listener => "[microservices]][stream_listener]: \x7b\x7d"
  | .copy => "[microservices][copy]: \x7b\x7d"
  | .shell => "[microservices][shell]: \x7b\x7d"
  | .socks => "[microservices][socks]: \x7b\x7d"

/-- The lines of a log output that carry the format string `format`. -/
def linesWith (format : String) (lines : List LogLine) : List LogLine :=
  lines.filter (fun l => l.format == format)

/-- The effect of reading one boolean field: nothing when the field is missing,
the setter applied to the translated value, or `ptree_bad_data` with the state
as it is. -/
def boolStep (L : Locale) (v : Option PTree) (s : Services) (set : Bool → Services) :
    Exec Services :=
  match v with
  | none => .done s
  | some n =>
    match L.get_bool n.data with
    | some b => .done (set b)
    | none => .thrown s ⟨n.data⟩

/-- The keys a service carries in its section: `enable` for all, plus
`gateway_ports` for the two listeners and `path`, `args` for the shell. -/
def ServiceName.own_keys : ServiceName → List String
  | .datagram_listener => ["enable", "gateway_ports"]
  | .stream_listener => ["enable", "gateway_ports"]
  | .shell => ["enable", "path", "args"]
  | _ => ["enable"]

/-- A node with one more child `(key, value)` after those it has. -/
def PTree.push_back (pt : PTree) (key : String) (value : PTree) : PTree :=
  .node pt.data (pt.children ++ [(key, value)])

/-- The children of a configuration after `(key, value)` is placed in the
section `sec`: in the first child under `sec`, or in a new section when there
is none. -/
def add_in_section (sec key : String) (value : PTree) :
    List (String × PTree) → List (String × PTree)
  | [] => [(sec, (PTree.node "" []).push_back key value)]
  | kp :: rest =>
    if kp.1 == sec then (kp.1, kp.2.push_back key value) :: rest
    else kp :: add_in_section sec key value rest

/-- The configuration with the key `key`, holding `value`, placed in the
section `sec` (as `add_child` does for the path `sec.key`). -/
def PTree.with_key (pt : PTree) (sec key : String) (value : PTree) : PTree :=
  .node pt.data (add_in_section sec key value pt.children)

/-- The position of a service's section in the order `Update` goes through
them. -/
def ServiceName.order : ServiceName → Nat
  | .datagram_forwarder => 0
  | .datagram_listener => 1
  | .stream_forwarder => 2
  | .stream_listener => 3
  | .shell => 4
  | .socks => 5
  | .copy => 6

/-- The value a call gives the `gateway_ports` flag of the listener `n`, when
it writes one: the argument of `SetGatewayPorts`, or the boolean held by the
`gateway_ports` key of the listener's section in an update. -/
def Call.gateway_value (L : Locale) (n : ServiceName) : Call → Option Bool
  | .SetGatewayPorts g => some g
  | .Update pt => (pt.field n.key "gateway_ports").bind (fun v => L.get_bool v.data)

/-! ## Concrete inputs for the examples -/

/-- A sample locale for the concrete examples: the literals `true`/`1` and
`false`/`0` translate to booleans, and the space characters are those of the
classic "C" locale (space, and tab to carriage return). -/
def classic : Locale where
  get_bool := fun s =>
    if s = "true" ∨ s = "1" then some true
    else if s = "false" ∨ s = "0" then some false
    else none
  is_space := fun c => c = ' ' ∨ (9 ≤ c.toNat ∧ c.toNat ≤ 13)

/-- A leaf node holding `d`. -/
def leaf (d : String) : PTree := .node d []

/-- A state with only `copy` enabled. -/
def copyOnly : Services :=
  { datagram_forwarder_ := ⟨false⟩
    datagram_listener_ := ⟨false, false⟩
    copy_ := ⟨true⟩
    shell_ := ⟨false, "", ""⟩
    socks_ := ⟨false⟩
    stream_forwarder_ := ⟨false⟩
    stream_listener_ := ⟨false, false⟩ }

/-- The configuration `{shell: {enable: true}}`. -/
def shellOn : PTree :=
  .node "" [("shell", .node "" [("enable", leaf "true")])]

/-- A configuration with a shell section whose path and args carry surrounding
blanks, and a stream listener section with both flags. -/
def shellAndListener : PTree :=
  .node "" [("shell", .node "" [("path", leaf "  /bin/sh\t"), ("args", leaf " -l ")]),
            ("stream_listener",
              .node "" [("enable", leaf "1"), ("gateway_ports", leaf "false")])]

/-- The configuration `{shell: {path: " /bin/bash "}}`. -/
def shellPath : PTree :=
  .node "" [("shell", .node "" [("path", leaf " /bin/bash ")])]

/-- The configuration `{socks: {enable: true}}`. -/
def socksOn : PTree :=
  .node "" [("socks", .node "" [("enable", leaf "true")])]

/-- The configuration `{stream_listener: {enable: true, gateway_ports: false}}`. -/
def listenerNoGateway : PTree :=
  .node "" [("stream_listener",
    .node "" [("enable", leaf "true"), ("gateway_ports", leaf "false")])]

/-- The configuration `{copy: {enable: false}, socks: {enable: maybe}}`. -/
def socksMaybe : PTree :=
  .node "" [("copy", .node "" [("enable", leaf "false")]),
            ("socks", .node "" [("enable", leaf "maybe")])]

/-- The configuration `{shell: {path: "  /bin/sh\t", args: " \t "}}`. -/
def shellBlanks : PTree :=
  .node "" [("shell", .node "" [("path", leaf "  /bin/sh\t"), ("args", leaf " \t ")])]

/-- The configuration `{socks: {enable: true}, copy: {enable: false}}`. -/
def socksOnCopyOff : PTree :=
  .node "" [("socks", .node "" [("enable", leaf "true")]),
            ("copy", .node "" [("enable", leaf "false")])]

/-- The configuration `{copy: {enable: false, path: /tmp}}`. -/
def copyOffWithPath : PTree :=
  .node "" [("copy", .node "" [("enable", leaf "false"), ("path", leaf "/tmp")])]

/-- A state with `copy` and `shell` enabled. -/
def copyAndShell : Services :=
  { copyOnly with shell_ := ⟨true, "/bin/sh", ""⟩ }

/-- The configuration
`{datagram_forwarder: {enable: true}, stream_listener: {enable: true, gateway_ports: maybe}, copy: {enable: false}}`. -/
def gatewayMaybe : PTree :=
  .node "" [("datagram_forwarder", .node "" [("enable", leaf "true")]),
            ("stream_listener",
              .node "" [("enable", leaf "true"), ("gateway_ports", leaf "maybe")]),
            ("copy", .node "" [("enable", leaf "false")])]

end config

/-! ## The server registry

`core/server/server.h` declares the registry members of `SSFServer` and the
member functions that change them; their bodies are in `server.ipp`, which is
not among the sources.  The functions below follow the specification's
description of them, each as one step taken under the registry lock. -/

/-- Modelled from the spec: the identity of a Session, `DemuxPtr` in
`server.h` (a shared pointer there; only its identity matters here). -/
abbrev DemuxPtr := Nat

/-- Modelled from the spec: the identity of a Service Manager,
`ServiceManagerPtr<Demux>` in `server.h`. -/
abbrev ServiceManagerPtr := Nat

/-- Modelled from the spec: the registry of `SSFServer`, that is the members
`p_fiber_demuxes_` (a set) and `p_service_managers_` (a map) of `server.h`,
together with what the specification lets the server do to its collaborators:
whether the acceptor was cancelled, the stop signals sent to Service Managers
and the close signals sent to Sessions, in order. -/
structure SSFServer where
  p_fiber_demuxes_ : List DemuxPtr
  p_service_managers_ : List (DemuxPtr × ServiceManagerPtr)
  acceptor_cancelled : Bool
  stop_signals : List ServiceManagerPtr
  close_signals : List DemuxPtr
  deriving DecidableEq, Repr

/-- Modelled from the spec: the server as constructed, with an empty registry
and nothing signalled. -/
def SSFServer.init : SSFServer :=
  { p_fiber_demuxes_ := [], p_service_managers_ := [], acceptor_cancelled := false,
    stop_signals := [], close_signals := [] }

/-- The keys of the Service-Manager map. -/
def SSFServer.keys (self : SSFServer) : List DemuxPtr :=
  self.p_service_managers_.map Prod.fst

/-- Modelled from the spec: the member `AddDemux` (body in `server.ipp`): the
Session and its Service Manager are inserted into the registry together; the
set takes the Session if it is new, the map binds the Session to the manager. -/
def SSFServer.AddDemux (self : SSFServer) (p_fiber_demux : DemuxPtr)
    (p_service_manager : ServiceManagerPtr) : SSFServer :=
  { self with
    p_fiber_demuxes_ :=
      if p_fiber_demux ∈ self.p_fiber_demuxes_ then self.p_fiber_demuxes_
      else self.p_fiber_demuxes_ ++ [p_fiber_demux]
    p_service_managers_ :=
      self.p_service_managers_.filter (fun kv => kv.1 != p_fiber_demux) ++
        [(p_fiber_demux, p_service_manager)] }

/-- Modelled from the spec: the member `RemoveDemux` (body in `server.ipp`): the
Service Manager registered for the Session, if any, is told to stop, then the
Session and its map entry are removed together. -/
def SSFServer.RemoveDemux (self : SSFServer) (p_fiber_demux : DemuxPtr) : SSFServer :=
  { self with
    stop_signals :=
      self.stop_signals ++
        (self.p_service_managers_.filter (fun kv => kv.1 == p_fiber_demux)).map Prod.snd
    p_fiber_demuxes_ := self.p_fiber_demuxes_.filter (fun d => d != p_fiber_demux)
    p_service_managers_ :=
      self.p_service_managers_.filter (fun kv => kv.1 != p_fiber_demux) }

/-- Modelled from the spec: the member `RemoveAllDemuxes` (body in
`server.ipp`): every registered Service Manager is told to stop and every
Session to close, then the registry is cleared. -/
def SSFServer.RemoveAllDemuxes (self : SSFServer) : SSFServer :=
  { self with
    stop_signals := self.stop_signals ++ self.p_service_managers_.map Prod.snd
    close_signals := self.close_signals ++ self.p_fiber_demuxes_
    p_fiber_demuxes_ := []
    p_service_managers_ := [] }

/-- Modelled from the spec: the member `Stop` (body in `server.ipp`): the
acceptor is cancelled, then the registry is torn down as by
`RemoveAllDemuxes`. -/
def SSFServer.Stop (self : SSFServer) : SSFServer :=
  SSFServer.RemoveAllDemuxes { self with acceptor_cancelled := true }

/-- A step that changes the registry. -/
inductive ServerStep where
  | AddDemux (p_fiber_demux : DemuxPtr) (p_service_manager : ServiceManagerPtr)
  | RemoveDemux (p_fiber_demux : DemuxPtr)
  | RemoveAllDemuxes
  | Stop
  deriving DecidableEq, Repr

/-- The server after one step. -/
def SSFServer.step (self : SSFServer) : ServerStep → SSFServer
  | .AddDemux d m => self.AddDemux d m
  | .RemoveDemux d => self.RemoveDemux d
  | .RemoveAllDemuxes => self.RemoveAllDemuxes
  | .Stop => self.Stop

/-- The server reached from construction by a sequence of steps. -/
def SSFServer.after (steps : List ServerStep) : SSFServer :=
  steps.foldl SSFServer.step SSFServer.init

/-- The registry is consistent: the Sessions are exactly the keys of the
Service-Manager map, and neither holds an identity twice. -/
def SSFServer.consistent (self : SSFServer) : Prop :=
  (∀ d, d ∈ self.p_fiber_demuxes_ ↔ d ∈ self.keys) ∧
  self.p_fiber_demuxes_.Nodup ∧ self.keys.Nodup

namespace config

/-! ## Outcome of each section updater -/

theorem Exec.andThen_eq_done_iff {σ : Type} (x : Exec σ) (f : σ → Exec σ) (t : σ) :
    x.andThen f = .done t ↔ ∃ u, x = .done u ∧ f u = .done t := by
  cases x <;> simp [Exec.andThen]

theorem Exec.done_eq_iff {σ : Type} (a b : σ) :
    (Exec.done a = Exec.done b) ↔ b = a := by
  constructor
  · intro h; injection h with h; exact h.symm
  · intro h; rw [h]

theorem UpdateDatagramForwarder_eq_done_iff (L : Locale) (s t : Services) (pt : PTree) :
    UpdateDatagramForwarder L s pt = .done t ↔
      L.typed (pt.field "datagram_forwarder" "enable") = true ∧
      t = { s with datagram_forwarder_ :=
              ⟨L.mergeBool (pt.field "datagram_forwarder" "enable") s.datagram_forwarder_.enabled⟩ } := by
  unfold UpdateDatagramForwarder IsServiceEnabled PTree.get_value_bool PTree.field
  cases h1 : pt.get_child_optional "datagram_forwarder" with
  | none => simp only [Option.bind, Locale.typed, Locale.mergeBool, Exec.done_eq_iff, true_and]
  | some sec =>
    cases h2 : sec.get_child_optional "enable" with
    | none =>
      simp only [Option.bind, h2, Locale.typed, Locale.mergeBool, Exec.done_eq_iff, true_and,
        ServiceConfig.set_enabled]
    | some v =>
      cases h3 : L.get_bool v.data
      · simp [Option.bind, h2, h3, Locale.typed]
      · simp only [Option.bind, h2, h3, Locale.typed, Locale.mergeBool, Exec.done_eq_iff,
          ServiceConfig.set_enabled, Option.isSome, Option.getD, true_and]

theorem UpdateDatagramListener_eq_done_iff (L : Locale) (s t : Services) (pt : PTree) :
    UpdateDatagramListener L s pt = .done t ↔
      (L.typed (pt.field "datagram_listener" "enable") = true ∧
        L.typed (pt.field "datagram_listener" "gateway_ports") = true) ∧
      t = { s with datagram_listener_ :=
              ⟨L.mergeBool (pt.field "datagram_listener" "enable") s.datagram_listener_.enabled,
               L.mergeBool (pt.field "datagram_listener" "gateway_ports") s.datagram_listener_.gateway_ports⟩ } := by
  unfold UpdateDatagramListener IsServiceEnabled PTree.get_value_bool PTree.field
  cases h1 : pt.get_child_optional "datagram_listener" with
  | none =>
    simp only [Option.bind, Locale.typed, Locale.mergeBool, Exec.done_eq_iff, true_and]
  | some sec =>
    cases h2 : sec.get_child_optional "enable" <;>
    cases h4 : sec.get_child_optional "gateway_ports" <;>
    simp only [Option.bind, h2, h4, Locale.typed, Locale.mergeBool, Exec.done_eq_iff, true_and,
      and_true, ListenerConfig.set_enabled, ListenerConfig.set_gateway_ports]
    · rename_i g
      cases h5 : L.get_bool g.data <;>
        (simp [h5, Exec.done_eq_iff]; try exact eq_comm)
    · rename_i v
      cases h3 : L.get_bool v.data <;>
        (simp [h3, Exec.done_eq_iff]; try exact eq_comm)
    · rename_i v g
      cases h3 : L.get_bool v.data <;> cases h5 : L.get_bool g.data <;>
        (simp [h3, h5, Exec.done_eq_iff]; try exact eq_comm)

theorem UpdateStreamForwarder_eq_done_iff (L : Locale) (s t : Services) (pt : PTree) :
    UpdateStreamForwarder L s pt = .done t ↔
      L.typed (pt.field "stream_forwarder" "enable") = true ∧
      t = { s with stream_forwarder_ :=
              ⟨L.mergeBool (pt.field "stream_forwarder" "enable") s.stream_forwarder_.enabled⟩ } := by
  unfold UpdateStreamForwarder IsServiceEnabled PTree.get_value_bool PTree.field
  cases h1 : pt.get_child_optional "stream_forwarder" with
  | none => simp only [Option.bind, Locale.typed, Locale.mergeBool, Exec.done_eq_iff, true_and]
  | some sec =>
    cases h2 : sec.get_child_optional "enable" with
    | none =>
      simp only [Option.bind, h2, Locale.typed, Locale.mergeBool, Exec.done_eq_iff, true_and,
        ServiceConfig.set_enabled]
    | some v =>
      cases h3 : L.get_bool v.data
      · simp [Option.bind, h2, h3, Locale.typed]
      · simp only [Option.bind, h2, h3, Locale.typed, Locale.mergeBool, Exec.done_eq_iff,
          ServiceConfig.set_enabled, Option.isSome, Option.getD, true_and]

theorem UpdateStreamListener_eq_done_iff (L : Locale) (s t : Services) (pt : PTree) :
    UpdateStreamListener L s pt = .done t ↔
      (L.typed (pt.field "stream_listener" "enable") = true ∧
        L.typed (pt.field "stream_listener" "gateway_ports") = true) ∧
      t = { s with stream_listener_ :=
              ⟨L.mergeBool (pt.field "stream_listener" "enable") s.stream_listener_.enabled,
               L.mergeBool (pt.field "stream_listener" "gateway_ports") s.stream_listener_.gateway_ports⟩ } := by
  unfold UpdateStreamListener IsServiceEnabled PTree.get_value_bool PTree.field
  cases h1 : pt.get_child_optional "stream_listener" with
  | none =>
    simp only [Option.bind, Locale.typed, Locale.mergeBool, Exec.done_eq_iff, true_and]
  | some sec =>
    cases h2 : sec.get_child_optional "enable" <;>
    cases h4 : sec.get_child_optional "gateway_ports" <;>
    simp only [Option.bind, h2, h4, Locale.typed, Locale.mergeBool, Exec.done_eq_iff, true_and,
      and_true, ListenerConfig.set_enabled, ListenerConfig.set_gateway_ports]
    · rename_i g
      cases h5 : L.get_bool g.data <;>
        (simp [h5, Exec.done_eq_iff]; try exact eq_comm)
    · rename_i v
      cases h3 : L.get_bool v.data <;>
        (simp [h3, Exec.done_eq_iff]; try exact eq_comm)
    · rename_i v g
      cases h3 : L.get_bool v.data <;> cases h5 : L.get_bool g.data <;>
        (simp [h3, h5, Exec.done_eq_iff]; try exact eq_comm)

theorem UpdateShell_eq_done_iff (L : Locale) (s t : Services) (pt : PTree) :
    UpdateShell L s pt = .done t ↔
      L.typed (pt.field "shell" "enable") = true ∧
      t = { s with shell_ :=
              ⟨L.mergeBool (pt.field "shell" "enable") s.shell_.enabled,
               L.mergeString (pt.field "shell" "path") s.shell_.path,
               L.mergeString (pt.field "shell" "args") s.shell_.args⟩ } := by
  unfold UpdateShell IsServiceEnabled PTree.get_value_bool PTree.field
  cases h1 : pt.get_child_optional "shell" with
  | none =>
    simp only [Option.bind, Locale.typed, Locale.mergeBool, Locale.mergeString,
      Exec.done_eq_iff, true_and]
  | some sec =>
    cases h2 : sec.get_child_optional "enable" with
    | none =>
      cases h4 : sec.get_child_optional "path" <;>
      cases h6 : sec.get_child_optional "args" <;>
      simp only [Option.bind, h2, h4, h6, Locale.typed, Locale.mergeBool, Locale.mergeString,
        Exec.done_eq_iff, true_and, ShellConfig.set_enabled, ShellConfig.set_path,
        ShellConfig.set_args]
    | some v =>
      cases h3 : L.get_bool v.data
      · simp [Option.bind, h2, h3, Locale.typed]
      · cases h4 : sec.get_child_optional "path" <;>
        cases h6 : sec.get_child_optional "args" <;>
        simp only [Option.bind, h2, h3, h4, h6, Locale.typed, Locale.mergeBool,
          Locale.mergeString, Exec.done_eq_iff, true_and, ShellConfig.set_enabled,
          ShellConfig.set_path, ShellConfig.set_args, Option.isSome, Option.getD]

theorem UpdateSocks_eq_done_iff (L : Locale) (s t : Services) (pt : PTree) :
    UpdateSocks L s pt = .done t ↔
      L.typed (pt.field "socks" "enable") = true ∧
      t = { s with socks_ :=
              ⟨L.mergeBool (pt.field "socks" "enable") s.socks_.enabled⟩ } := by
  unfold UpdateSocks IsServiceEnabled PTree.get_value_bool PTree.field
  cases h1 : pt.get_child_optional "socks" with
  | none => simp only [Option.bind, Locale.typed, Locale.mergeBool, Exec.done_eq_iff, true_and]
  | some sec =>
    cases h2 : sec.get_child_optional "enable" with
    | none =>
      simp only [Option.bind, h2, Locale.typed, Locale.mergeBool, Exec.done_eq_iff, true_and,
        ServiceConfig.set_enabled]
    | some v =>
      cases h3 : L.get_bool v.data
      · simp [Option.bind, h2, h3, Locale.typed]
      · simp only [Option.bind, h2, h3, Locale.typed, Locale.mergeBool, Exec.done_eq_iff,
          ServiceConfig.set_enabled, Option.isSome, Option.getD, true_and]

theorem UpdateCopy_eq_done_iff (L : Locale) (s t : Services) (pt : PTree) :
    UpdateCopy L s pt = .done t ↔
      L.typed (pt.field "copy" "enable") = true ∧
      t = { s with copy_ :=
              ⟨L.mergeBool (pt.field "copy" "enable") s.copy_.enabled⟩ } := by
  unfold UpdateCopy IsServiceEnabled PTree.get_value_bool PTree.field
  cases h1 : pt.get_child_optional "copy" with
  | none => simp only [Option.bind, Locale.typed, Locale.mergeBool, Exec.done_eq_iff, true_and]
  | some sec =>
    cases h2 : sec.get_child_optional "enable" with
    | none =>
      simp only [Option.bind, h2, Locale.typed, Locale.mergeBool, Exec.done_eq_iff, true_and,
        ServiceConfig.set_enabled]
    | some v =>
      cases h3 : L.get_bool v.data
      · simp [Option.bind, h2, h3, Locale.typed]
      · simp only [Option.bind, h2, h3, Locale.typed, Locale.mergeBool, Exec.done_eq_iff,
          ServiceConfig.set_enabled, Option.isSome, Option.getD, true_and]

/-! ## Outcome of `Update` -/

/-- `Update` returns exactly when every boolean field it reads is well typed,
and then the state is the field-by-field merge. -/
theorem Update_eq_done_iff (L : Locale) (s t : Services) (pt : PTree) :
    Update L s pt = .done t ↔ wellTyped L pt ∧ t = merged L s pt := by
  simp only [Update, Exec.andThen_eq_done_iff, UpdateDatagramForwarder_eq_done_iff,
    UpdateDatagramListener_eq_done_iff, UpdateStreamForwarder_eq_done_iff,
    UpdateStreamListener_eq_done_iff, UpdateShell_eq_done_iff, UpdateSocks_eq_done_iff,
    UpdateCopy_eq_done_iff, wellTyped, merged]
  constructor
  · rintro ⟨_, ⟨_, ⟨_, ⟨_, ⟨_, ⟨_, ⟨h1, rfl⟩, ⟨h2, h3⟩, rfl⟩, h4, rfl⟩, ⟨h5, h6⟩, rfl⟩,
      h7, rfl⟩, h8, rfl⟩, h9, rfl⟩
    exact ⟨⟨h1, h2, h3, h4, h5, h6, h7, h8, h9⟩, rfl⟩
  · rintro ⟨⟨h1, h2, h3, h4, h5, h6, h7, h8, h9⟩, rfl⟩
    exact ⟨_, ⟨_, ⟨_, ⟨_, ⟨_, ⟨_, ⟨h1, rfl⟩, ⟨h2, h3⟩, rfl⟩, h4, rfl⟩, ⟨h5, h6⟩, rfl⟩,
      h7, rfl⟩, h8, rfl⟩, h9, rfl⟩

/-- Whether `Update` returns does not depend on the state it starts from. -/
theorem Update_done_of_wellTyped (L : Locale) (s : Services) (pt : PTree)
    (h : wellTyped L pt) : Update L s pt = .done (merged L s pt) :=
  (Update_eq_done_iff L s _ pt).2 ⟨h, rfl⟩

/-- An ill-typed boolean field makes `Update` throw. -/
theorem Update_thrown_of_not_wellTyped (L : Locale) (s : Services) (pt : PTree)
    (h : ¬ wellTyped L pt) : ∃ t e, Update L s pt = .thrown t e := by
  cases hu : Update L s pt with
  | done t => exact absurd ((Update_eq_done_iff L s t pt).1 hu).1 h
  | thrown t e => exact ⟨t, e, rfl⟩

/-! ## Field lookups -/

theorem PTree.field_of_section_none (pt : PTree) (sec key : String)
    (h : pt.get_child_optional sec = none) : pt.field sec key = none := by
  simp [PTree.field, h]

theorem PTree.field_of_section_some (pt p : PTree) (sec key : String)
    (h : pt.get_child_optional sec = some p) :
    pt.field sec key = p.get_child_optional key := by
  simp [PTree.field, h]

/-! ## Field retention -/

/-- C1: on a successful `Update`, a service whose section is absent keeps its
whole record; `enabled` is kept when the section has no `enable` key; a
listener's `gateway_ports` is kept when its section has no `gateway_ports` key;
the shell `path` (`args`) is kept when the shell section has no `path` (`args`)
key. -/
theorem Update_retains_unspecified (L : Locale) (s t : Services) (c : PTree)
    (h : Update L s c = .done t) :
    (∀ n : ServiceName, c.get_child_optional n.key = none → t.record n = s.record n) ∧
    (∀ (n : ServiceName) (sec : PTree), c.get_child_optional n.key = some sec →
      sec.get_child_optional "enable" = none →
      (t.record n).enabled = (s.record n).enabled) ∧
    (∀ (n : ServiceName) (sec : PTree), n.is_listener = true →
      c.get_child_optional n.key = some sec →
      sec.get_child_optional "gateway_ports" = none →
      (t.record n).gateway_ports = (s.record n).gateway_ports) ∧
    (∀ sec : PTree, c.get_child_optional "shell" = some sec →
      sec.get_child_optional "path" = none → t.shell_.path = s.shell_.path) ∧
    (∀ sec : PTree, c.get_child_optional "shell" = some sec →
      sec.get_child_optional "args" = none → t.shell_.args = s.shell_.args) := by
  obtain ⟨-, rfl⟩ := (Update_eq_done_iff L s t c).1 h
  refine ⟨?_, ?_, ?_, ?_, ?_⟩
  · intro n hn
    cases n <;>
      simp only [ServiceName.key] at hn <;>
      simp [Services.record, merged, PTree.field_of_section_none _ _ _ hn, Locale.mergeBool,
        Locale.mergeString]
  · intro n sec hn he
    cases n <;>
      simp only [ServiceName.key] at hn <;>
      simp [Services.record, merged, PTree.field_of_section_some _ _ _ _ hn, he,
        Locale.mergeBool]
  · intro n sec hl hn hg
    cases n <;> simp only [ServiceName.is_listener, Bool.false_eq_true] at hl <;>
      simp only [ServiceName.key] at hn <;>
      simp [Services.record, merged, PTree.field_of_section_some _ _ _ _ hn, hg,
        Locale.mergeBool]
  · intro sec hn hp
    simp [merged, PTree.field_of_section_some _ _ _ _ hn, hp, Locale.mergeString]
  · intro sec hn hp
    simp [merged, PTree.field_of_section_some _ _ _ _ hn, hp, Locale.mergeString]

/-- C1, the example of the specification: from a state with `copy` enabled,
`{shell: {enable: true}}` updates successfully and `copy` stays enabled. -/
theorem Update_retains_unspecified_witness :
    Update classic copyOnly shellOn = .done { copyOnly with shell_ := ⟨true, "", ""⟩ } ∧
    shellOn.get_child_optional ServiceName.copy.key = none ∧
    ({ copyOnly with shell_ := ⟨true, "", ""⟩ } : Services).record .copy =
      copyOnly.record .copy ∧
    (({ copyOnly with shell_ := ⟨true, "", ""⟩ } : Services).record .copy).enabled = true :=
  ⟨by decide, rfl,
    (Update_retains_unspecified classic copyOnly _ shellOn (by decide)).1 .copy rfl,
    by decide⟩

/-! ## Specified values -/

/-- C2: on a successful `Update`, a service whose section has an `enable` key
holding the boolean `b` reads `enabled = b` afterwards, and a listener whose
section has a `gateway_ports` key holding `g` reads `gateway_ports = g`. -/
theorem Update_applies_specified (L : Locale) (s t : Services) (c : PTree)
    (h : Update L s c = .done t) :
    (∀ (n : ServiceName) (sec v : PTree) (b : Bool),
      c.get_child_optional n.key = some sec →
      sec.get_child_optional "enable" = some v → L.get_bool v.data = some b →
      (t.record n).enabled = b) ∧
    (∀ (n : ServiceName) (sec v : PTree) (g : Bool), n.is_listener = true →
      c.get_child_optional n.key = some sec →
      sec.get_child_optional "gateway_ports" = some v → L.get_bool v.data = some g →
      (t.record n).gateway_ports = some g) := by
  obtain ⟨-, rfl⟩ := (Update_eq_done_iff L s t c).1 h
  refine ⟨?_, ?_⟩
  · intro n sec v b hn he hb
    cases n <;>
      simp only [ServiceName.key] at hn <;>
      simp [Services.record, merged, PTree.field_of_section_some _ _ _ _ hn, he, hb,
        Locale.mergeBool]
  · intro n sec v g hl hn hg hb
    cases n <;> simp only [ServiceName.is_listener, Bool.false_eq_true] at hl <;>
      simp only [ServiceName.key] at hn <;>
      simp [Services.record, merged, PTree.field_of_section_some _ _ _ _ hn, hg, hb,
        Locale.mergeBool]

/-- C2, the example of the specification: `{shell: {enable: true}}` sets
`shell.enabled` to true. -/
theorem Update_applies_specified_witness :
    Update classic copyOnly shellOn = .done { copyOnly with shell_ := ⟨true, "", ""⟩ } ∧
    (({ copyOnly with shell_ := ⟨true, "", ""⟩ } : Services).record .shell).enabled = true :=
  ⟨by decide,
    (Update_applies_specified classic copyOnly _ shellOn (by decide)).1 .shell
      (.node "" [("enable", leaf "true")]) (leaf "true") true rfl rfl (by decide)⟩

/-! ## Idempotence -/

theorem Locale.mergeBool_idem (L : Locale) (v : Option PTree) (old : Bool) :
    L.mergeBool v (L.mergeBool v old) = L.mergeBool v old := by
  cases v with
  | none => rfl
  | some n => cases h : L.get_bool n.data <;> simp [Locale.mergeBool, h]

theorem Locale.mergeString_idem (L : Locale) (v : Option PTree) (old : String) :
    L.mergeString v (L.mergeString v old) = L.mergeString v old := by
  cases v <;> rfl

theorem merged_idem (L : Locale) (s : Services) (c : PTree) :
    merged L (merged L s c) c = merged L s c := by
  simp [merged, Locale.mergeBool_idem, Locale.mergeString_idem]

/-- C3: when `Update(c)` succeeds from `s` with result `t`, applying
`Update(c)` again succeeds and leaves exactly `t`. -/
theorem Update_idempotent (L : Locale) (s t : Services) (c : PTree)
    (h : Update L s c = .done t) : Update L t c = .done t := by
  obtain ⟨hw, rfl⟩ := (Update_eq_done_iff L s t c).1 h
  rw [Update_done_of_wellTyped L _ c hw, merged_idem]

/-- C3 on a concrete input: the shell path and args are trimmed once and the
second application changes nothing. -/
theorem Update_idempotent_witness :
    Update classic copyOnly shellAndListener =
      .done { copyOnly with shell_ := ⟨false, "/bin/sh", "-l"⟩,
                            stream_listener_ := ⟨true, false⟩ } ∧
    Update classic { copyOnly with shell_ := ⟨false, "/bin/sh", "-l"⟩,
                                   stream_listener_ := ⟨true, false⟩ } shellAndListener =
      .done { copyOnly with shell_ := ⟨false, "/bin/sh", "-l"⟩,
                            stream_listener_ := ⟨true, false⟩ } :=
  ⟨by decide, Update_idempotent classic copyOnly _ shellAndListener (by decide)⟩

/-! ## Commutativity on disjoint fields -/

theorem Locale.mergeBool_comm (L : Locale) (va vb : Option PTree) (old : Bool)
    (h : ¬ (va.isSome = true ∧ vb.isSome = true)) :
    L.mergeBool vb (L.mergeBool va old) = L.mergeBool va (L.mergeBool vb old) := by
  cases va <;> cases vb <;> simp_all [Locale.mergeBool]

theorem Locale.mergeString_comm (L : Locale) (va vb : Option PTree) (old : String)
    (h : ¬ (va.isSome = true ∧ vb.isSome = true)) :
    L.mergeString vb (L.mergeString va old) = L.mergeString va (L.mergeString vb old) := by
  cases va <;> cases vb <;> simp_all [Locale.mergeString]

theorem merged_comm (L : Locale) (s : Services) (a b : PTree)
    (hd : ∀ f ∈ readFields, ¬ (a.specifies f = true ∧ b.specifies f = true)) :
    merged L (merged L s a) b = merged L (merged L s b) a := by
  have h := fun sec key hm => hd (sec, key) hm
  simp only [PTree.specifies] at h
  simp only [merged]
  rw [L.mergeBool_comm _ _ _ (h "datagram_forwarder" "enable" (by simp [readFields])),
    L.mergeBool_comm _ _ _ (h "datagram_listener" "enable" (by simp [readFields])),
    L.mergeBool_comm _ _ _ (h "datagram_listener" "gateway_ports" (by simp [readFields])),
    L.mergeBool_comm _ _ _ (h "stream_forwarder" "enable" (by simp [readFields])),
    L.mergeBool_comm _ _ _ (h "stream_listener" "enable" (by simp [readFields])),
    L.mergeBool_comm _ _ _ (h "stream_listener" "gateway_ports" (by simp [readFields])),
    L.mergeBool_comm _ _ _ (h "shell" "enable" (by simp [readFields])),
    L.mergeString_comm _ _ _ (h "shell" "path" (by simp [readFields])),
    L.mergeString_comm _ _ _ (h "shell" "args" (by simp [readFields])),
    L.mergeBool_comm _ _ _ (h "socks" "enable" (by simp [readFields])),
    L.mergeBool_comm _ _ _ (h "copy" "enable" (by simp [readFields]))]

/-- C4: when `a` and `b` both update successfully and no field read by
`Update` is specified by both, `Update(b)` after `Update(a)` and `Update(a)`
after `Update(b)` both succeed and end in the same state. -/
theorem Update_comm_of_disjoint (L : Locale) (s sa sb : Services) (a b : PTree)
    (ha : Update L s a = .done sa) (hb : Update L s b = .done sb)
    (hd : ∀ f ∈ readFields, ¬ (a.specifies f = true ∧ b.specifies f = true)) :
    ∃ t, Update L sa b = .done t ∧ Update L sb a = .done t := by
  obtain ⟨hwa, rfl⟩ := (Update_eq_done_iff L s sa a).1 ha
  obtain ⟨hwb, rfl⟩ := (Update_eq_done_iff L s sb b).1 hb
  refine ⟨merged L (merged L s a) b, Update_done_of_wellTyped L _ b hwb, ?_⟩
  rw [merged_comm L s a b hd]
  exact Update_done_of_wellTyped L _ a hwa

/-- C4, the example of the specification: `shell.path` then `socks.enable`, or
the reverse, end in the same state. -/
theorem Update_comm_of_disjoint_witness :
    Update classic copyOnly shellPath =
      .done { copyOnly with shell_ := ⟨false, "/bin/bash", ""⟩ } ∧
    Update classic copyOnly socksOn = .done { copyOnly with socks_ := ⟨true⟩ } ∧
    (∀ f ∈ readFields, ¬ (shellPath.specifies f = true ∧ socksOn.specifies f = true)) ∧
    ∃ t, Update classic { copyOnly with shell_ := ⟨false, "/bin/bash", ""⟩ } socksOn =
          .done t ∧
        Update classic { copyOnly with socks_ := ⟨true⟩ } shellPath = .done t :=
  ⟨by decide, by decide, by decide,
    Update_comm_of_disjoint classic copyOnly _ _ shellPath socksOn (by decide) (by decide)
      (by decide)⟩

/-! ## The global gateway override -/

/-- C5: after an update that set `stream_listener.gateway_ports` to false,
`SetGatewayPorts(true)` turns it on and a later successful update without
`gateway_ports` keys leaves both listeners' flags true; in general
`SetGatewayPorts(g)` followed by a successful update without `gateway_ports`
keys leaves both flags equal to `g`. -/
theorem gateway_override_survives_update (L : Locale) :
    (∀ (s s1 t : Services) (c1 c2 sec v : PTree),
      c1.get_child_optional "stream_listener" = some sec →
      sec.get_child_optional "gateway_ports" = some v → L.get_bool v.data = some false →
      Update L s c1 = .done s1 →
      c2.noGatewayKeys → Update L (SetGatewayPorts s1 true) c2 = .done t →
      s1.stream_listener_.gateway_ports = false ∧
      (SetGatewayPorts s1 true).stream_listener_.gateway_ports = true ∧
      t.stream_listener_.gateway_ports = true ∧
      t.datagram_listener_.gateway_ports = true) ∧
    (∀ (s t : Services) (g : Bool) (c : PTree),
      c.noGatewayKeys → Update L (SetGatewayPorts s g) c = .done t →
      t.stream_listener_.gateway_ports = g ∧ t.datagram_listener_.gateway_ports = g) := by
  have general : ∀ (s t : Services) (g : Bool) (c : PTree),
      c.noGatewayKeys → Update L (SetGatewayPorts s g) c = .done t →
      t.stream_listener_.gateway_ports = g ∧ t.datagram_listener_.gateway_ports = g := by
    intro s t g c hk h
    obtain ⟨-, rfl⟩ := (Update_eq_done_iff L _ t c).1 h
    have h1 : c.field "datagram_listener" "gateway_ports" = none :=
      Option.not_isSome_iff_eq_none.1 (by simpa [PTree.specifies] using hk.1)
    have h2 : c.field "stream_listener" "gateway_ports" = none :=
      Option.not_isSome_iff_eq_none.1 (by simpa [PTree.specifies] using hk.2)
    simp [merged, h1, h2, Locale.mergeBool, SetGatewayPorts,
      ListenerConfig.set_gateway_ports]
  refine ⟨?_, general⟩
  intro s s1 t c1 c2 sec v hsec hv hb h1 hk h2
  refine ⟨?_, ?_, general s1 t true c2 hk h2⟩
  · obtain ⟨-, rfl⟩ := (Update_eq_done_iff L s s1 c1).1 h1
    simp [merged, PTree.field_of_section_some _ _ _ _ hsec, hv, hb, Locale.mergeBool]
  · simp [SetGatewayPorts, ListenerConfig.set_gateway_ports]

/-- C5 on a concrete input: gateway ports disabled by configuration, forced on
by the override, and still on after `{shell: {enable: true}}`. -/
theorem gateway_override_survives_update_witness :
    Update classic copyOnly listenerNoGateway =
      .done { copyOnly with stream_listener_ := ⟨true, false⟩ } ∧
    shellOn.noGatewayKeys ∧
    Update classic
        (SetGatewayPorts { copyOnly with stream_listener_ := ⟨true, false⟩ } true) shellOn =
      .done { copyOnly with datagram_listener_ := ⟨false, true⟩,
                            shell_ := ⟨true, "", ""⟩,
                            stream_listener_ := ⟨true, true⟩ } ∧
    (({ copyOnly with stream_listener_ := ⟨true, false⟩ } : Services).stream_listener_.gateway_ports
        = false ∧
      (SetGatewayPorts { copyOnly with stream_listener_ := ⟨true, false⟩ }
        true).stream_listener_.gateway_ports = true ∧
      ({ copyOnly with datagram_listener_ := ⟨false, true⟩,
                       shell_ := ⟨true, "", ""⟩,
                       stream_listener_ := ⟨true, true⟩ } : Services).stream_listener_.gateway_ports
        = true ∧
      ({ copyOnly with datagram_listener_ := ⟨false, true⟩,
                       shell_ := ⟨true, "", ""⟩,
                       stream_listener_ := ⟨true, true⟩ } : Services).datagram_listener_.gateway_ports
        = true) :=
  ⟨by decide, ⟨rfl, rfl⟩, by decide,
    (gateway_override_survives_update classic).1 copyOnly _ _ listenerNoGateway shellOn
      (.node "" [("enable", leaf "true"), ("gateway_ports", leaf "false")]) (leaf "false")
      rfl rfl (by decide) (by decide) ⟨rfl, rfl⟩ (by decide)⟩

/-- C6: `SetGatewayPorts(g)` makes both listeners' `gateway_ports` equal to
`g` whatever they were, and changes nothing else: the `enabled` flag of the two
listeners and the whole record of the five other services (shell path and args
included) are as before. -/
theorem SetGatewayPorts_post_and_frame (s : Services) (g : Bool) :
    (SetGatewayPorts s g).datagram_listener_.gateway_ports = g ∧
    (SetGatewayPorts s g).stream_listener_.gateway_ports = g ∧
    (SetGatewayPorts s g).datagram_listener_.enabled = s.datagram_listener_.enabled ∧
    (SetGatewayPorts s g).stream_listener_.enabled = s.stream_listener_.enabled ∧
    (SetGatewayPorts s g).datagram_forwarder_ = s.datagram_forwarder_ ∧
    (SetGatewayPorts s g).stream_forwarder_ = s.stream_forwarder_ ∧
    (SetGatewayPorts s g).shell_ = s.shell_ ∧
    (SetGatewayPorts s g).socks_ = s.socks_ ∧
    (SetGatewayPorts s g).copy_ = s.copy_ :=
  ⟨rfl, rfl, rfl, rfl, rfl, rfl, rfl, rfl, rfl⟩

/-! ## Type errors and missing keys -/

theorem not_wellTyped_of_bad_enable (L : Locale) (c : PTree) (n : ServiceName)
    (sec v : PTree) (hn : c.get_child_optional n.key = some sec)
    (he : sec.get_child_optional "enable" = some v) (hb : L.get_bool v.data = none) :
    ¬ wellTyped L c := by
  intro hw
  cases n <;> simp only [ServiceName.key] at hn <;>
    simp [wellTyped, PTree.field_of_section_some _ _ _ _ hn, he, hb, Locale.typed] at hw

theorem not_wellTyped_of_bad_gateway_ports (L : Locale) (c : PTree) (n : ServiceName)
    (sec v : PTree) (hl : n.is_listener = true) (hn : c.get_child_optional n.key = some sec)
    (hg : sec.get_child_optional "gateway_ports" = some v) (hb : L.get_bool v.data = none) :
    ¬ wellTyped L c := by
  intro hw
  cases n <;> simp only [ServiceName.is_listener, Bool.false_eq_true] at hl <;>
    simp only [ServiceName.key] at hn <;>
    simp [wellTyped, PTree.field_of_section_some _ _ _ _ hn, hg, hb, Locale.typed] at hw

/-- C7: when some present section has an `enable` key that does not translate
to a boolean, or a present listener section has such a `gateway_ports` key,
`Update` throws `ptree_bad_data`; it does not return. -/
theorem Update_reports_type_error (L : Locale) (s : Services) (c : PTree)
    (h : (∃ (n : ServiceName) (sec v : PTree), c.get_child_optional n.key = some sec ∧
            sec.get_child_optional "enable" = some v ∧ L.get_bool v.data = none) ∨
         (∃ (n : ServiceName) (sec v : PTree), n.is_listener = true ∧
            c.get_child_optional n.key = some sec ∧
            sec.get_child_optional "gateway_ports" = some v ∧ L.get_bool v.data = none)) :
    (∃ t e, Update L s c = .thrown t e) ∧ ∀ t, Update L s c ≠ .done t := by
  have hw : ¬ wellTyped L c := by
    rcases h with ⟨n, sec, v, hn, he, hb⟩ | ⟨n, sec, v, hl, hn, hg, hb⟩
    · exact not_wellTyped_of_bad_enable L c n sec v hn he hb
    · exact not_wellTyped_of_bad_gateway_ports L c n sec v hl hn hg hb
  exact ⟨Update_thrown_of_not_wellTyped L s c hw,
    fun t ht => hw ((Update_eq_done_iff L s t c).1 ht).1⟩

/-- C7 on a concrete input: `socks.enable` holds `maybe`, and `Update` throws
`ptree_bad_data` on it. -/
theorem Update_reports_type_error_witness :
    Update classic copyOnly socksMaybe = .thrown copyOnly ⟨"maybe"⟩ ∧
    (∃ t e, Update classic copyOnly socksMaybe = .thrown t e) ∧
    ∀ t, Update classic copyOnly socksMaybe ≠ .done t :=
  ⟨by decide,
    Update_reports_type_error classic copyOnly socksMaybe
      (Or.inl ⟨.socks, .node "" [("enable", leaf "maybe")], leaf "maybe", rfl, rfl,
        by decide⟩)⟩

/-- C8: when every `enable` key of a present section and every `gateway_ports`
key of a present listener section translates to a boolean, `Update` returns;
and on a configuration with none of the seven sections it returns the state
unchanged. -/
theorem Update_succeeds_on_typed (L : Locale) (s : Services) (c : PTree) :
    ((∀ (n : ServiceName) (sec v : PTree), c.get_child_optional n.key = some sec →
        sec.get_child_optional "enable" = some v → ∃ b, L.get_bool v.data = some b) →
      (∀ (n : ServiceName) (sec v : PTree), n.is_listener = true →
        c.get_child_optional n.key = some sec →
        sec.get_child_optional "gateway_ports" = some v → ∃ g, L.get_bool v.data = some g) →
      ∃ t, Update L s c = .done t) ∧
    ((∀ n : ServiceName, c.get_child_optional n.key = none) → Update L s c = .done s) := by
  constructor
  · intro he hg
    refine ⟨merged L s c, Update_done_of_wellTyped L s c ?_⟩
    have key : ∀ (n : ServiceName) (k : String),
        (k = "enable" ∨ (k = "gateway_ports" ∧ n.is_listener = true)) →
        L.typed (c.field n.key k) = true := by
      intro n k hk
      cases hn : c.get_child_optional n.key with
      | none => simp [PTree.field, hn, Locale.typed]
      | some sec =>
        cases hv : sec.get_child_optional k with
        | none => simp [PTree.field, hn, hv, Locale.typed]
        | some v =>
          have hb : ∃ b, L.get_bool v.data = some b := by
            rcases hk with rfl | ⟨rfl, hl⟩
            · exact he n sec v hn hv
            · exact hg n sec v hl hn hv
          obtain ⟨b, hb⟩ := hb
          simp [PTree.field, hn, hv, Locale.typed, hb]
    exact ⟨key .datagram_forwarder _ (Or.inl rfl), key .datagram_listener _ (Or.inl rfl),
      key .datagram_listener _ (Or.inr ⟨rfl, rfl⟩), key .stream_forwarder _ (Or.inl rfl),
      key .stream_listener _ (Or.inl rfl), key .stream_listener _ (Or.inr ⟨rfl, rfl⟩),
      key .shell _ (Or.inl rfl), key .socks _ (Or.inl rfl), key .copy _ (Or.inl rfl)⟩
  · intro hn
    have h := fun n k => PTree.field_of_section_none c _ k (hn n)
    simp only [ServiceName.key] at h
    refine (Update_eq_done_iff L s s c).2 ⟨?_, ?_⟩
    · simp [wellTyped, h .datagram_forwarder, h .datagram_listener, h .stream_forwarder,
        h .stream_listener, h .shell, h .socks, h .copy, Locale.typed]
    · simp [merged, h .datagram_forwarder, h .datagram_listener, h .stream_forwarder,
        h .stream_listener, h .shell, h .socks, h .copy, Locale.mergeBool,
        Locale.mergeString]

/-- C8 on concrete inputs: `{shell: {enable: true}}` has only translatable
booleans and updates successfully; the empty configuration returns the state
unchanged. -/
theorem Update_succeeds_on_typed_witness :
    (∃ t, Update classic copyOnly shellOn = .done t) ∧
    Update classic copyOnly (leaf "") = .done copyOnly := by
  refine ⟨(Update_succeeds_on_typed classic copyOnly shellOn).1 ?_ ?_,
    (Update_succeeds_on_typed classic copyOnly (leaf "")).2 ?_⟩
  · intro n sec v hn he
    cases n <;>
      simp [shellOn, ServiceName.key, PTree.get_child_optional, PTree.children] at hn
    subst hn
    simp [PTree.get_child_optional, PTree.children] at he
    subst he
    exact ⟨true, by decide⟩
  · intro n sec v hl hn hg
    cases n <;>
      simp [shellOn, ServiceName.key, ServiceName.is_listener, PTree.get_child_optional,
        PTree.children] at hn hl
  · intro n
    cases n <;> rfl

/-! ## Trimming of the shell path and arguments -/

theorem trim_right_if_append (q : Char → Bool) (cs : List Char) :
    trim_right_if q cs ++ (cs.reverse.takeWhile q).reverse = cs := by
  unfold trim_right_if
  rw [← List.reverse_append, List.takeWhile_append_dropWhile, List.reverse_reverse]

theorem trim_right_if_getLast (q : Char → Bool) (cs : List Char) (ch : Char)
    (h : (trim_right_if q cs).getLast? = some ch) : q ch = false := by
  unfold trim_right_if at h
  rw [List.getLast?_reverse] at h
  have := List.head?_dropWhile_not q cs.reverse
  rw [h] at this
  exact this

theorem trim_left_if_head (q : Char → Bool) (cs : List Char) (ch : Char)
    (h : (trim_left_if q cs).head? = some ch) : q ch = false := by
  unfold trim_left_if at h
  have := List.head?_dropWhile_not q cs
  rw [h] at this
  exact this

/-- The call `boost::trim` meets the wording of the specification. -/
theorem trim_isTrimOf (L : Locale) (p : String) : IsTrimOf L p (trim L p) := by
  refine ⟨(trim_right_if L.is_space p.data).takeWhile L.is_space,
    (p.data.reverse.takeWhile L.is_space).reverse, ?_, ?_, ?_, ?_, ?_⟩
  · show p.data = _ ++ trim_left_if L.is_space (trim_right_if L.is_space p.data) ++ _
    unfold trim_left_if
    rw [List.takeWhile_append_dropWhile, trim_right_if_append]
  · intro ch hc
    exact List.mem_takeWhile_imp hc
  · intro ch hc
    exact List.mem_takeWhile_imp (List.mem_reverse.1 hc)
  · intro ch hc
    exact trim_left_if_head L.is_space _ ch hc
  · intro ch hc
    apply trim_right_if_getLast L.is_space p.data ch
    have hsplit := List.takeWhile_append_dropWhile L.is_space
      (trim_right_if L.is_space p.data)
    rw [← hsplit, List.getLast?_append]
    have hc2 : (List.dropWhile L.is_space (trim_right_if L.is_space p.data)).getLast? =
        some ch := hc
    rw [hc2]
    rfl

/-- A value made of whitespace only is trimmed to the empty string. -/
theorem trim_of_all_space (L : Locale) (p : String)
    (h : ∀ ch ∈ p.data, L.is_space ch = true) : trim L p = "" := by
  have h1 : trim_right_if L.is_space p.data = [] := by
    unfold trim_right_if
    rw [List.reverse_eq_nil_iff, List.dropWhile_eq_nil_iff]
    intro x hx
    exact h x (List.mem_reverse.1 hx)
  unfold trim
  rw [h1]
  rfl

/-- C9: on a successful `Update` whose shell section has a `path` (`args`)
key, the stored shell path (args) is the key's value with leading and trailing
whitespace removed and the interior unchanged: it does not begin or end with a
whitespace character, and it is empty when the value is whitespace only. -/
theorem Update_trims_shell_strings (L : Locale) (s t : Services) (c : PTree)
    (h : Update L s c = .done t) :
    (∀ sec v : PTree, c.get_child_optional "shell" = some sec →
      sec.get_child_optional "path" = some v →
      IsTrimOf L v.data t.shell_.path ∧
      ((∀ ch ∈ v.data.data, L.is_space ch = true) → t.shell_.path = "")) ∧
    (∀ sec v : PTree, c.get_child_optional "shell" = some sec →
      sec.get_child_optional "args" = some v →
      IsTrimOf L v.data t.shell_.args ∧
      ((∀ ch ∈ v.data.data, L.is_space ch = true) → t.shell_.args = "")) := by
  obtain ⟨-, rfl⟩ := (Update_eq_done_iff L s t c).1 h
  constructor
  · intro sec v hn hp
    have e : (merged L s c).shell_.path = trim L v.data := by
      simp [merged, PTree.field_of_section_some _ _ _ _ hn, hp, Locale.mergeString]
    rw [e]
    exact ⟨trim_isTrimOf L v.data, trim_of_all_space L v.data⟩
  · intro sec v hn hp
    have e : (merged L s c).shell_.args = trim L v.data := by
      simp [merged, PTree.field_of_section_some _ _ _ _ hn, hp, Locale.mergeString]
    rw [e]
    exact ⟨trim_isTrimOf L v.data, trim_of_all_space L v.data⟩

/-- C9 on a concrete input: the path loses its surrounding blanks and the
blank-only args are stored as the empty string. -/
theorem Update_trims_shell_strings_witness :
    Update classic copyOnly shellBlanks =
      .done { copyOnly with shell_ := ⟨false, "/bin/sh", ""⟩ } ∧
    IsTrimOf classic "  /bin/sh\t" "/bin/sh" ∧
    ({ copyOnly with shell_ := ⟨false, "/bin/sh", ""⟩ } : Services).shell_.args = "" :=
  ⟨by decide,
    ((Update_trims_shell_strings classic copyOnly
        { copyOnly with shell_ := ⟨false, "/bin/sh", ""⟩ } shellBlanks (by decide)).1
      (.node "" [("path", leaf "  /bin/sh\t"), ("args", leaf " \t ")])
      (leaf "  /bin/sh\t") rfl rfl).1,
    ((Update_trims_shell_strings classic copyOnly
        { copyOnly with shell_ := ⟨false, "/bin/sh", ""⟩ } shellBlanks (by decide)).2
      (.node "" [("path", leaf "  /bin/sh\t"), ("args", leaf " \t ")])
      (leaf " \t ") rfl rfl).2 (by decide)⟩

/-! ## The copy constructor -/

/-- The copy constructed from `s` equals `s`: each of the seven services has in
the copy the record (enabled, gateway_ports, path, args) it has in `s`. -/
theorem Services.copy_eq (s : Services) :
    Services.copy s = s ∧ ∀ n : ServiceName, (Services.copy s).record n = s.record n :=
  ⟨rfl, fun n => by cases n <;> rfl⟩

/-! ## Diagnostics -/

/-- C18: `Log` emits the gateway warning of a listener exactly when that
listener is enabled with `gateway_ports` set, the shell path line exactly when
the shell is enabled, the shell args line exactly when the shell is enabled and
its args are not empty, and nothing else; `LogServiceStatus` emits seven
lines, one for each of the seven services, whose argument is `On` exactly when
that service is enabled. -/
theorem diagnostics_content (s : Services) :
    linesWith "[microservices][datagram_listener] gateway ports allowed" (Log s).2 =
      (if s.datagram_listener_.enabled = true ∧ s.datagram_listener_.gateway_ports = true
       then [SSF_LOG "config" .warn
              "[microservices][datagram_listener] gateway ports allowed" []]
       else []) ∧
    linesWith "[microservices][stream_listener] gateway ports allowed" (Log s).2 =
      (if s.stream_listener_.enabled = true ∧ s.stream_listener_.gateway_ports = true
       then [SSF_LOG "config" .warn
              "[microservices][stream_listener] gateway ports allowed" []]
       else []) ∧
    linesWith "[microservices][shell] path: <\x7b\x7d>" (Log s).2 =
      (if s.shell_.enabled = true
       then [SSF_LOG "config" .info "[microservices][shell] path: <\x7b\x7d>" [s.shell_.path]]
       else []) ∧
    linesWith "[microservices][shell] args: <\x7b\x7d>" (Log s).2 =
      (if s.shell_.enabled = true ∧ s.shell_.args ≠ ""
       then [SSF_LOG "config" .info "[microservices][shell] args: <\x7b\x7d>" [s.shell_.args]]
       else []) ∧
    (∀ l ∈ (Log s).2,
      l.format = "[microservices][datagram_listener] gateway ports allowed" ∨
      l.format = "[microservices][stream_listener] gateway ports allowed" ∨
      l.format = "[microservices][shell] path: <\x7b\x7d>" ∨
      l.format = "[microservices][shell] args: <\x7b\x7d>") ∧
    (LogServiceStatus s).2.length = 7 ∧
    (LogServiceStatus s).2 =
      statusOrder.map (fun n =>
        SSF_LOG "status" .info n.status_format [on_off (s.record n).enabled]) ∧
    statusOrder.Nodup ∧ (∀ n : ServiceName, n ∈ statusOrder) ∧
    (∀ b : Bool, on_off b = "On" ↔ b = true) := by
  refine ⟨?_, ?_, ?_, ?_, ?_, rfl, rfl, by decide, fun n => by cases n <;> decide,
    fun b => by cases b <;> decide⟩
  all_goals
    obtain ⟨⟨e1⟩, ⟨e2, g2⟩, ⟨e3⟩, ⟨e5, p5, a5⟩, ⟨e6⟩, ⟨e7⟩, ⟨e8, g8⟩⟩ := s
    by_cases ha : a5 = "" <;>
    cases e2 <;> cases g2 <;> cases e5 <;> cases e8 <;> cases g8 <;>
    simp [Log, linesWith, SSF_LOG, Services.process, ha]

/-! ## The updaters as steps over the fields they read -/

theorem UpdateDatagramForwarder_eq_boolStep (L : Locale) (s : Services) (pt : PTree) :
    UpdateDatagramForwarder L s pt =
      boolStep L (pt.field "datagram_forwarder" "enable") s
        (fun b => { s with datagram_forwarder_ := ⟨b⟩ }) := by
  unfold UpdateDatagramForwarder IsServiceEnabled PTree.get_value_bool PTree.field boolStep
  cases h1 : pt.get_child_optional "datagram_forwarder" with
  | none => rfl
  | some sec =>
    cases h2 : sec.get_child_optional "enable" with
    | none => simp only [Option.bind, h2, ServiceConfig.set_enabled]
    | some v =>
      cases h3 : L.get_bool v.data <;>
        simp only [Option.bind, h2, h3, ServiceConfig.set_enabled]

theorem UpdateDatagramListener_eq_boolStep (L : Locale) (s : Services) (pt : PTree) :
    UpdateDatagramListener L s pt =
      (boolStep L (pt.field "datagram_listener" "enable") s
        (fun b => { s with datagram_listener_ := ⟨b, s.datagram_listener_.gateway_ports⟩ })).andThen
      (fun s1 => boolStep L (pt.field "datagram_listener" "gateway_ports") s1
        (fun g => { s1 with datagram_listener_ := ⟨s1.datagram_listener_.enabled, g⟩ })) := by
  unfold UpdateDatagramListener IsServiceEnabled PTree.get_value_bool PTree.field boolStep
  cases h1 : pt.get_child_optional "datagram_listener" with
  | none => rfl
  | some sec =>
    cases h2 : sec.get_child_optional "enable" with
    | none =>
      cases h4 : sec.get_child_optional "gateway_ports" with
      | none =>
        simp only [Option.bind, h2, h4, Exec.andThen, ListenerConfig.set_enabled]
      | some g =>
        cases h5 : L.get_bool g.data <;>
          simp only [Option.bind, h2, h4, h5, Exec.andThen, ListenerConfig.set_enabled,
            ListenerConfig.set_gateway_ports]
    | some v =>
      cases h3 : L.get_bool v.data with
      | none => simp only [Option.bind, h2, h3, Exec.andThen]
      | some b =>
        cases h4 : sec.get_child_optional "gateway_ports" with
        | none =>
          simp only [Option.bind, h2, h3, h4, Exec.andThen, ListenerConfig.set_enabled]
        | some g =>
          cases h5 : L.get_bool g.data <;>
            simp only [Option.bind, h2, h3, h4, h5, Exec.andThen, ListenerConfig.set_enabled,
              ListenerConfig.set_gateway_ports]

theorem UpdateStreamForwarder_eq_boolStep (L : Locale) (s : Services) (pt : PTree) :
    UpdateStreamForwarder L s pt =
      boolStep L (pt.field "stream_forwarder" "enable") s
        (fun b => { s with stream_forwarder_ := ⟨b⟩ }) := by
  unfold UpdateStreamForwarder IsServiceEnabled PTree.get_value_bool PTree.field boolStep
  cases h1 : pt.get_child_optional "stream_forwarder" with
  | none => rfl
  | some sec =>
    cases h2 : sec.get_child_optional "enable" with
    | none => simp only [Option.bind, h2, ServiceConfig.set_enabled]
    | some v =>
      cases h3 : L.get_bool v.data <;>
        simp only [Option.bind, h2, h3, ServiceConfig.set_enabled]

theorem UpdateStreamListener_eq_boolStep (L : Locale) (s : Services) (pt : PTree) :
    UpdateStreamListener L s pt =
      (boolStep L (pt.field "stream_listener" "enable") s
        (fun b => { s with stream_listener_ := ⟨b, s.stream_listener_.gateway_ports⟩ })).andThen
      (fun s1 => boolStep L (pt.field "stream_listener" "gateway_ports") s1
        (fun g => { s1 with stream_listener_ := ⟨s1.stream_listener_.enabled, g⟩ })) := by
  unfold UpdateStreamListener IsServiceEnabled PTree.get_value_bool PTree.field boolStep
  cases h1 : pt.get_child_optional "stream_listener" with
  | none => rfl
  | some sec =>
    cases h2 : sec.get_child_optional "enable" with
    | none =>
      cases h4 : sec.get_child_optional "gateway_ports" with
      | none =>
        simp only [Option.bind, h2, h4, Exec.andThen, ListenerConfig.set_enabled]
      | some g =>
        cases h5 : L.get_bool g.data <;>
          simp only [Option.bind, h2, h4, h5, Exec.andThen, ListenerConfig.set_enabled,
            ListenerConfig.set_gateway_ports]
    | some v =>
      cases h3 : L.get_bool v.data with
      | none => simp only [Option.bind, h2, h3, Exec.andThen]
      | some b =>
        cases h4 : sec.get_child_optional "gateway_ports" with
        | none =>
          simp only [Option.bind, h2, h3, h4, Exec.andThen, ListenerConfig.set_enabled]
        | some g =>
          cases h5 : L.get_bool g.data <;>
            simp only [Option.bind, h2, h3, h4, h5, Exec.andThen, ListenerConfig.set_enabled,
              ListenerConfig.set_gateway_ports]

theorem UpdateShell_eq_boolStep (L : Locale) (s : Services) (pt : PTree) :
    UpdateShell L s pt =
      (boolStep L (pt.field "shell" "enable") s
        (fun b => { s with shell_ := ⟨b, s.shell_.path, s.shell_.args⟩ })).andThen
      (fun s1 => .done { s1 with shell_ :=
        ⟨s1.shell_.enabled, L.mergeString (pt.field "shell" "path") s1.shell_.path,
         L.mergeString (pt.field "shell" "args") s1.shell_.args⟩ }) := by
  unfold UpdateShell IsServiceEnabled PTree.get_value_bool PTree.field boolStep
  cases h1 : pt.get_child_optional "shell" with
  | none => rfl
  | some sec =>
    cases h2 : sec.get_child_optional "enable" with
    | none =>
      cases h4 : sec.get_child_optional "path" <;>
      cases h6 : sec.get_child_optional "args" <;>
      simp only [Option.bind, h2, h4, h6, Exec.andThen, Locale.mergeString,
        ShellConfig.set_enabled, ShellConfig.set_path, ShellConfig.set_args]
    | some v =>
      cases h3 : L.get_bool v.data with
      | none => simp only [Option.bind, h2, h3, Exec.andThen]
      | some b =>
        cases h4 : sec.get_child_optional "path" <;>
        cases h6 : sec.get_child_optional "args" <;>
        simp only [Option.bind, h2, h3, h4, h6, Exec.andThen, Locale.mergeString,
          ShellConfig.set_enabled, ShellConfig.set_path, ShellConfig.set_args]

theorem UpdateSocks_eq_boolStep (L : Locale) (s : Services) (pt : PTree) :
    UpdateSocks L s pt =
      boolStep L (pt.field "socks" "enable") s
        (fun b => { s with socks_ := ⟨b⟩ }) := by
  unfold UpdateSocks IsServiceEnabled PTree.get_value_bool PTree.field boolStep
  cases h1 : pt.get_child_optional "socks" with
  | none => rfl
  | some sec =>
    cases h2 : sec.get_child_optional "enable" with
    | none => simp only [Option.bind, h2, ServiceConfig.set_enabled]
    | some v =>
      cases h3 : L.get_bool v.data <;>
        simp only [Option.bind, h2, h3, ServiceConfig.set_enabled]

theorem UpdateCopy_eq_boolStep (L : Locale) (s : Services) (pt : PTree) :
    UpdateCopy L s pt =
      boolStep L (pt.field "copy" "enable") s
        (fun b => { s with copy_ := ⟨b⟩ }) := by
  unfold UpdateCopy IsServiceEnabled PTree.get_value_bool PTree.field boolStep
  cases h1 : pt.get_child_optional "copy" with
  | none => rfl
  | some sec =>
    cases h2 : sec.get_child_optional "enable" with
    | none => simp only [Option.bind, h2, ServiceConfig.set_enabled]
    | some v =>
      cases h3 : L.get_bool v.data <;>
        simp only [Option.bind, h2, h3, ServiceConfig.set_enabled]

/-! ## Keys outside a service's own -/

theorem PTree.get_child_optional_push_back (p : PTree) (key key' : String) (value : PTree)
    (h : key' ≠ key) :
    (p.push_back key value).get_child_optional key' = p.get_child_optional key' := by
  have hk : (key == key') = false := by
    simpa using fun e : key = key' => h e.symm
  simp [PTree.get_child_optional, PTree.push_back, PTree.children, List.find?_append, hk]

theorem find_add_in_section_ne (sec key sec' : String) (value : PTree) (h : sec' ≠ sec)
    (l : List (String × PTree)) :
    (add_in_section sec key value l).find? (fun kv => kv.1 == sec') =
      l.find? (fun kv => kv.1 == sec') := by
  have hs : (sec == sec') = false := by
    simpa using fun e : sec = sec' => h e.symm
  induction l with
  | nil => simp [add_in_section, hs]
  | cons kp rest ih =>
    unfold add_in_section
    by_cases hk : kp.1 = sec
    · have hk' : (kp.1 == sec') = false := by rw [hk]; exact hs
      simp [hk, List.find?_cons, hk', hs]
    · rw [if_neg (by simpa using hk)]
      by_cases hk2 : kp.1 = sec'
      · simp [List.find?_cons, hk2]
      · simp [List.find?_cons, hk2, ih]

theorem find_add_in_section_eq (sec key : String) (value : PTree)
    (l : List (String × PTree)) :
    ((add_in_section sec key value l).find? (fun kv => kv.1 == sec)).map Prod.snd =
      some ((((l.find? (fun kv => kv.1 == sec)).map Prod.snd).getD (PTree.node "" [])).push_back
        key value) := by
  induction l with
  | nil => simp [add_in_section]
  | cons kp rest ih =>
    unfold add_in_section
    by_cases hk : kp.1 = sec
    · simp [hk, List.find?_cons]
    · simp [hk, List.find?_cons, ih]

theorem PTree.field_with_key (c : PTree) (sec key sec' key' : String) (value : PTree)
    (h : sec' ≠ sec ∨ key' ≠ key) :
    (c.with_key sec key value).field sec' key' = c.field sec' key' := by
  by_cases hs : sec' = sec
  · subst hs
    have hk : key' ≠ key := h.resolve_left (fun h => h rfl)
    have e : (c.with_key sec' key value).get_child_optional sec' =
        some (((c.get_child_optional sec').getD (PTree.node "" [])).push_back key value) :=
      find_add_in_section_eq sec' key value c.children
    unfold PTree.field
    rw [e]
    cases hc : c.get_child_optional sec' with
    | none =>
      simp only [Option.getD, Option.bind]
      rw [PTree.get_child_optional_push_back _ _ _ _ hk]
      rfl
    | some p =>
      simp only [Option.getD, Option.bind]
      rw [PTree.get_child_optional_push_back _ _ _ _ hk]
  · have e : (c.with_key sec key value).get_child_optional sec' =
        c.get_child_optional sec' := by
      unfold PTree.get_child_optional
      exact congrArg _ (find_add_in_section_ne sec key sec' value hs c.children)
    unfold PTree.field
    rw [e]

/-- The outcome of `Update`, returned or thrown, is determined by the eleven
fields it reads. -/
theorem Update_congr_fields (L : Locale) (s : Services) (c c' : PTree)
    (h : ∀ f ∈ readFields, c'.field f.1 f.2 = c.field f.1 f.2) :
    Update L s c' = Update L s c := by
  have hf := fun sec key hm => h (sec, key) hm
  simp only [Update, UpdateDatagramForwarder_eq_boolStep, UpdateDatagramListener_eq_boolStep,
    UpdateStreamForwarder_eq_boolStep, UpdateStreamListener_eq_boolStep,
    UpdateShell_eq_boolStep, UpdateSocks_eq_boolStep, UpdateCopy_eq_boolStep]
  rw [hf "datagram_forwarder" "enable" (by simp [readFields]),
    hf "datagram_listener" "enable" (by simp [readFields]),
    hf "datagram_listener" "gateway_ports" (by simp [readFields]),
    hf "stream_forwarder" "enable" (by simp [readFields]),
    hf "stream_listener" "enable" (by simp [readFields]),
    hf "stream_listener" "gateway_ports" (by simp [readFields]),
    hf "shell" "enable" (by simp [readFields]),
    hf "shell" "path" (by simp [readFields]),
    hf "shell" "args" (by simp [readFields]),
    hf "socks" "enable" (by simp [readFields]),
    hf "copy" "enable" (by simp [readFields])]

theorem Locale.mergeBool_congr_data (L : Locale) (v v' : Option PTree) (old : Bool)
    (h : v.map PTree.data = v'.map PTree.data) : L.mergeBool v old = L.mergeBool v' old := by
  cases v <;> cases v' <;> simp_all [Locale.mergeBool]

theorem Locale.mergeString_congr_data (L : Locale) (v v' : Option PTree) (old : String)
    (h : v.map PTree.data = v'.map PTree.data) :
    L.mergeString v old = L.mergeString v' old := by
  cases v <;> cases v' <;> simp_all [Locale.mergeString]

/-- C15: after a successful `Update` the record of a service is determined by
its prior record and the data of its own keys in its own section (`enable`;
also `gateway_ports` for a listener; also `path` and `args` for the shell); and
a key that is not one of a service's own, placed in that service's section with
any value, changes nothing in what `Update` does. -/
theorem service_fields_are_own (L : Locale) :
    (∀ (n : ServiceName) (s s' t t' : Services) (c c' : PTree),
      Update L s c = .done t → Update L s' c' = .done t' →
      s.record n = s'.record n →
      (∀ k ∈ n.own_keys,
        (c.field n.key k).map PTree.data = (c'.field n.key k).map PTree.data) →
      t.record n = t'.record n) ∧
    (∀ (n : ServiceName) (key : String) (value : PTree) (s : Services) (c : PTree),
      key ∉ n.own_keys → Update L s (c.with_key n.key key value) = Update L s c) := by
  constructor
  · intro n s s' t t' c c' h h' hr hk
    obtain ⟨-, rfl⟩ := (Update_eq_done_iff L s t c).1 h
    obtain ⟨-, rfl⟩ := (Update_eq_done_iff L s' t' c').1 h'
    cases n <;>
      simp only [ServiceName.own_keys, ServiceName.key, List.mem_cons, List.mem_singleton,
        List.not_mem_nil, or_false, forall_eq_or_imp, forall_eq] at hk <;>
      simp only [Services.record, Record.mk.injEq, Option.some.injEq, and_true, true_and]
        at hr <;>
      first
        | simp [Services.record, merged, hr, L.mergeBool_congr_data _ _ _ hk]
        | simp [Services.record, merged, hr, L.mergeBool_congr_data _ _ _ hk.1,
            L.mergeBool_congr_data _ _ _ hk.2]
        | simp [Services.record, merged, hr, L.mergeBool_congr_data _ _ _ hk.1,
            L.mergeString_congr_data _ _ _ hk.2.1, L.mergeString_congr_data _ _ _ hk.2.2]
  · intro n key value s c hk
    apply Update_congr_fields
    intro f hf
    apply PTree.field_with_key
    cases n <;>
      simp only [ServiceName.own_keys, List.mem_cons, List.mem_singleton, List.not_mem_nil,
        or_false, not_or] at hk <;>
      simp only [readFields, List.mem_cons, List.mem_singleton, List.not_mem_nil,
        or_false] at hf <;>
      rcases hf with rfl | rfl | rfl | rfl | rfl | rfl | rfl | rfl | rfl | rfl | rfl <;>
      first
        | exact Or.inl (by decide)
        | exact Or.inr (Ne.symm hk)
        | exact Or.inr (Ne.symm hk.1)
        | exact Or.inr (Ne.symm hk.2)
        | exact Or.inr (Ne.symm hk.2.1)
        | exact Or.inr (Ne.symm hk.2.2)

/-- C15 on concrete inputs: the `copy` record after two different updates from
two different states agreeing on `copy` and on `copy.enable`; and a
`gateway_ports` key holding `maybe` placed in the `socks` section, which
changes nothing. -/
theorem service_fields_are_own_witness :
    ({ copyOnly with socks_ := ⟨true⟩, copy_ := ⟨false⟩ } : Services).record .copy =
      ({ copyAndShell with copy_ := ⟨false⟩ } : Services).record .copy ∧
    Update classic copyOnly
        (.node "" [("socks", .node "" [("enable", leaf "true"),
                                       ("gateway_ports", leaf "maybe")]),
                   ("copy", .node "" [("enable", leaf "false")])]) =
      Update classic copyOnly socksOnCopyOff ∧
    Update classic copyOnly socksOnCopyOff =
      .done { copyOnly with socks_ := ⟨true⟩, copy_ := ⟨false⟩ } := by
  refine ⟨(service_fields_are_own classic).1 .copy copyOnly copyAndShell _ _
      socksOnCopyOff copyOffWithPath (by decide) (by decide) rfl ?_,
    (service_fields_are_own classic).2 .socks "gateway_ports" (leaf "maybe") copyOnly
      socksOnCopyOff (by decide), by decide⟩
  intro k hk
  simp only [ServiceName.own_keys, List.mem_singleton] at hk
  subst hk
  rfl

/-! ## Where a failed `Update` stops -/

theorem Exec.andThen_eq_thrown_iff {σ : Type} (x : Exec σ) (f : σ → Exec σ) (t : σ)
    (e : ptree_bad_data) :
    x.andThen f = .thrown t e ↔ x = .thrown t e ∨ ∃ u, x = .done u ∧ f u = .thrown t e := by
  cases x <;> simp [Exec.andThen]

theorem boolStep_eq_thrown_iff (L : Locale) (v : Option PTree) (s : Services)
    (set : Bool → Services) (t : Services) (e : ptree_bad_data) :
    boolStep L v s set = .thrown t e ↔
      t = s ∧ ∃ n, v = some n ∧ L.get_bool n.data = none ∧ e = ⟨n.data⟩ := by
  unfold boolStep
  cases v with
  | none => simp
  | some n =>
    cases h : L.get_bool n.data
    · simp only [h, Exec.thrown.injEq, Option.some.injEq, exists_eq_left', true_and]
      constructor <;> (rintro ⟨h1, h2⟩; exact ⟨h1.symm, h2.symm⟩)
    · simp [h]

theorem boolStep_eq_done_iff (L : Locale) (v : Option PTree) (s : Services)
    (set : Bool → Services) (old : Bool) (t : Services) (hset : set old = s) :
    boolStep L v s set = .done t ↔ L.typed v = true ∧ t = set (L.mergeBool v old) := by
  unfold boolStep
  cases v with
  | none => simp [Locale.typed, Locale.mergeBool, hset, eq_comm]
  | some n =>
    cases h : L.get_bool n.data <;> simp [Locale.typed, Locale.mergeBool, h, eq_comm]

theorem PTree.field_eq_some_iff (pt : PTree) (sec key : String) (v : PTree) :
    pt.field sec key = some v ↔
      ∃ p, pt.get_child_optional sec = some p ∧ p.get_child_optional key = some v := by
  unfold PTree.field
  cases pt.get_child_optional sec <;> simp

theorem UpdateDatagramForwarder_eq_thrown_iff (L : Locale) (s t : Services) (pt : PTree)
    (e : ptree_bad_data) :
    UpdateDatagramForwarder L s pt = .thrown t e ↔
      t = s ∧ ∃ v, pt.field "datagram_forwarder" "enable" = some v ∧ L.get_bool v.data = none ∧
        e = ⟨v.data⟩ := by
  rw [UpdateDatagramForwarder_eq_boolStep, boolStep_eq_thrown_iff]

theorem UpdateDatagramListener_eq_thrown_iff (L : Locale) (s t : Services) (pt : PTree)
    (e : ptree_bad_data) :
    UpdateDatagramListener L s pt = .thrown t e ↔
      (t = s ∧ ∃ v, pt.field "datagram_listener" "enable" = some v ∧ L.get_bool v.data = none ∧
        e = ⟨v.data⟩) ∨
      (L.typed (pt.field "datagram_listener" "enable") = true ∧
        t = { s with datagram_listener_ :=
              ⟨L.mergeBool (pt.field "datagram_listener" "enable") s.datagram_listener_.enabled,
               s.datagram_listener_.gateway_ports⟩ } ∧
        ∃ v, pt.field "datagram_listener" "gateway_ports" = some v ∧ L.get_bool v.data = none ∧
          e = ⟨v.data⟩) := by
  rw [UpdateDatagramListener_eq_boolStep, Exec.andThen_eq_thrown_iff, boolStep_eq_thrown_iff]
  constructor
  · rintro (h | ⟨u, hu, h⟩)
    · exact Or.inl h
    · obtain ⟨ht, hu2⟩ := (boolStep_eq_done_iff L _ s _ s.datagram_listener_.enabled u rfl).1 hu
      obtain ⟨h3, h4⟩ := (boolStep_eq_thrown_iff L _ _ _ t e).1 h
      exact Or.inr ⟨ht, h3.trans hu2, h4⟩
  · rintro (h | ⟨ht, rfl, h⟩)
    · exact Or.inl h
    · exact Or.inr ⟨_, (boolStep_eq_done_iff L _ s _ s.datagram_listener_.enabled _ rfl).2 ⟨ht, rfl⟩,
        (boolStep_eq_thrown_iff L _ _ _ _ e).2 ⟨rfl, h⟩⟩

theorem UpdateStreamForwarder_eq_thrown_iff (L : Locale) (s t : Services) (pt : PTree)
    (e : ptree_bad_data) :
    UpdateStreamForwarder L s pt = .thrown t e ↔
      t = s ∧ ∃ v, pt.field "stream_forwarder" "enable" = some v ∧ L.get_bool v.data = none ∧
        e = ⟨v.data⟩ := by
  rw [UpdateStreamForwarder_eq_boolStep, boolStep_eq_thrown_iff]

theorem UpdateStreamListener_eq_thrown_iff (L : Locale) (s t : Services) (pt : PTree)
    (e : ptree_bad_data) :
    UpdateStreamListener L s pt = .thrown t e ↔
      (t = s ∧ ∃ v, pt.field "stream_listener" "enable" = some v ∧ L.get_bool v.data = none ∧
        e = ⟨v.data⟩) ∨
      (L.typed (pt.field "stream_listener" "enable") = true ∧
        t = { s with stream_listener_ :=
              ⟨L.mergeBool (pt.field "stream_listener" "enable") s.stream_listener_.enabled,
               s.stream_listener_.gateway_ports⟩ } ∧
        ∃ v, pt.field "stream_listener" "gateway_ports" = some v ∧ L.get_bool v.data = none ∧
          e = ⟨v.data⟩) := by
  rw [UpdateStreamListener_eq_boolStep, Exec.andThen_eq_thrown_iff, boolStep_eq_thrown_iff]
  constructor
  · rintro (h | ⟨u, hu, h⟩)
    · exact Or.inl h
    · obtain ⟨ht, hu2⟩ := (boolStep_eq_done_iff L _ s _ s.stream_listener_.enabled u rfl).1 hu
      obtain ⟨h3, h4⟩ := (boolStep_eq_thrown_iff L _ _ _ t e).1 h
      exact Or.inr ⟨ht, h3.trans hu2, h4⟩
  · rintro (h | ⟨ht, rfl, h⟩)
    · exact Or.inl h
    · exact Or.inr ⟨_, (boolStep_eq_done_iff L _ s _ s.stream_listener_.enabled _ rfl).2 ⟨ht, rfl⟩,
        (boolStep_eq_thrown_iff L _ _ _ _ e).2 ⟨rfl, h⟩⟩

theorem UpdateShell_eq_thrown_iff (L : Locale) (s t : Services) (pt : PTree)
    (e : ptree_bad_data) :
    UpdateShell L s pt = .thrown t e ↔
      t = s ∧ ∃ v, pt.field "shell" "enable" = some v ∧ L.get_bool v.data = none ∧
        e = ⟨v.data⟩ := by
  rw [UpdateShell_eq_boolStep, Exec.andThen_eq_thrown_iff, boolStep_eq_thrown_iff]
  constructor
  · rintro (h | ⟨u, -, h⟩)
    · exact h
    · cases h
  · exact Or.inl

theorem UpdateSocks_eq_thrown_iff (L : Locale) (s t : Services) (pt : PTree)
    (e : ptree_bad_data) :
    UpdateSocks L s pt = .thrown t e ↔
      t = s ∧ ∃ v, pt.field "socks" "enable" = some v ∧ L.get_bool v.data = none ∧
        e = ⟨v.data⟩ := by
  rw [UpdateSocks_eq_boolStep, boolStep_eq_thrown_iff]

theorem UpdateCopy_eq_thrown_iff (L : Locale) (s t : Services) (pt : PTree)
    (e : ptree_bad_data) :
    UpdateCopy L s pt = .thrown t e ↔
      t = s ∧ ∃ v, pt.field "copy" "enable" = some v ∧ L.get_bool v.data = none ∧
        e = ⟨v.data⟩ := by
  rw [UpdateCopy_eq_boolStep, boolStep_eq_thrown_iff]

/-- Where `Update` throws: the failing section, its unparseable value, and the
state the exception leaves. -/
theorem Update_thrown_cases (L : Locale) (s t : Services) (c : PTree) (e : ptree_bad_data)
    (h : Update L s c = .thrown t e) :
    ∃ (n : ServiceName) (sec v : PTree),
      c.get_child_optional n.key = some sec ∧ L.get_bool v.data = none ∧ e = ⟨v.data⟩ ∧
      (∀ m : ServiceName, m.order < n.order → t.record m = (merged L s c).record m) ∧
      (∀ m : ServiceName, n.order < m.order → t.record m = s.record m) ∧
      ((sec.get_child_optional "enable" = some v ∧ t.record n = s.record n) ∨
       (n.is_listener = true ∧ sec.get_child_optional "gateway_ports" = some v ∧
        (t.record n).enabled = ((merged L s c).record n).enabled ∧
        (t.record n).gateway_ports = (s.record n).gateway_ports)) := by
  unfold Update at h
  cases h1 : UpdateDatagramForwarder L s c with
  | thrown t1 e1 =>
    rw [h1] at h
    simp only [Exec.andThen] at h
    injection h with ht he
    subst ht he
    obtain ⟨rfl, v, hv, hb, rfl⟩ := (UpdateDatagramForwarder_eq_thrown_iff L _ _ c _).1 h1
    obtain ⟨sec, hsec, hkey⟩ := (PTree.field_eq_some_iff c _ _ v).1 hv
    refine ⟨.datagram_forwarder, sec, v, hsec, hb, rfl, ?_, ?_, Or.inl ⟨hkey, ?_⟩⟩
    · intro m hm
      cases m <;> exact absurd hm (by decide)
    · intro m hm
      cases m <;> first | exact absurd hm (by decide) | simp [Services.record, merged]
    · simp [Services.record]
  | done s1 =>
    rw [h1] at h
    simp only [Exec.andThen] at h
    obtain ⟨-, rfl⟩ := (UpdateDatagramForwarder_eq_done_iff L _ _ c).1 h1
    cases h2 : UpdateDatagramListener L _ c with
    | thrown t2 e2 =>
      rw [h2] at h
      simp only [Exec.andThen] at h
      injection h with ht he
      subst ht he
      rcases (UpdateDatagramListener_eq_thrown_iff L _ _ c _).1 h2 with
        ⟨rfl, v, hv, hb, rfl⟩ | ⟨-, rfl, v, hv, hb, rfl⟩
      · obtain ⟨sec, hsec, hkey⟩ := (PTree.field_eq_some_iff c _ _ v).1 hv
        refine ⟨.datagram_listener, sec, v, hsec, hb, rfl, ?_, ?_, Or.inl ⟨hkey, ?_⟩⟩
        · intro m hm
          cases m <;> first | exact absurd hm (by decide) | simp [Services.record, merged]
        · intro m hm
          cases m <;> first | exact absurd hm (by decide) | simp [Services.record, merged]
        · simp [Services.record]
      · obtain ⟨sec, hsec, hkey⟩ := (PTree.field_eq_some_iff c _ _ v).1 hv
        refine ⟨.datagram_listener, sec, v, hsec, hb, rfl, ?_, ?_, Or.inr ⟨rfl, hkey, ?_, ?_⟩⟩
        · intro m hm
          cases m <;> first | exact absurd hm (by decide) | simp [Services.record, merged]
        · intro m hm
          cases m <;> first | exact absurd hm (by decide) | simp [Services.record, merged]
        · simp [Services.record, merged]
        · simp [Services.record]
    | done s2 =>
      rw [h2] at h
      simp only [Exec.andThen] at h
      obtain ⟨-, rfl⟩ := (UpdateDatagramListener_eq_done_iff L _ _ c).1 h2
      cases h3 : UpdateStreamForwarder L _ c with
      | thrown t3 e3 =>
        rw [h3] at h
        simp only [Exec.andThen] at h
        injection h with ht he
        subst ht he
        obtain ⟨rfl, v, hv, hb, rfl⟩ := (UpdateStreamForwarder_eq_thrown_iff L _ _ c _).1 h3
        obtain ⟨sec, hsec, hkey⟩ := (PTree.field_eq_some_iff c _ _ v).1 hv
        refine ⟨.stream_forwarder, sec, v, hsec, hb, rfl, ?_, ?_, Or.inl ⟨hkey, ?_⟩⟩
        · intro m hm
          cases m <;> first | exact absurd hm (by decide) | simp [Services.record, merged]
        · intro m hm
          cases m <;> first | exact absurd hm (by decide) | simp [Services.record, merged]
        · simp [Services.record]
      | done s3 =>
        rw [h3] at h
        simp only [Exec.andThen] at h
        obtain ⟨-, rfl⟩ := (UpdateStreamForwarder_eq_done_iff L _ _ c).1 h3
        cases h4 : UpdateStreamListener L _ c with
        | thrown t4 e4 =>
          rw [h4] at h
          simp only [Exec.andThen] at h
          injection h with ht he
          subst ht he
          rcases (UpdateStreamListener_eq_thrown_iff L _ _ c _).1 h4 with
            ⟨rfl, v, hv, hb, rfl⟩ | ⟨-, rfl, v, hv, hb, rfl⟩
          · obtain ⟨sec, hsec, hkey⟩ := (PTree.field_eq_some_iff c _ _ v).1 hv
            refine ⟨.stream_listener, sec, v, hsec, hb, rfl, ?_, ?_, Or.inl ⟨hkey, ?_⟩⟩
            · intro m hm
              cases m <;> first | exact absurd hm (by decide) | simp [Services.record, merged]
            · intro m hm
              cases m <;> first | exact absurd hm (by decide) | simp [Services.record, merged]
            · simp [Services.record]
          · obtain ⟨sec, hsec, hkey⟩ := (PTree.field_eq_some_iff c _ _ v).1 hv
            refine ⟨.stream_listener, sec, v, hsec, hb, rfl, ?_, ?_, Or.inr ⟨rfl, hkey, ?_, ?_⟩⟩
            · intro m hm
              cases m <;> first | exact absurd hm (by decide) | simp [Services.record, merged]
            · intro m hm
              cases m <;> first | exact absurd hm (by decide) | simp [Services.record, merged]
            · simp [Services.record, merged]
            · simp [Services.record]
        | done s4 =>
          rw [h4] at h
          simp only [Exec.andThen] at h
          obtain ⟨-, rfl⟩ := (UpdateStreamListener_eq_done_iff L _ _ c).1 h4
          cases h5 : UpdateShell L _ c with
          | thrown t5 e5 =>
            rw [h5] at h
            simp only [Exec.andThen] at h
            injection h with ht he
            subst ht he
            obtain ⟨rfl, v, hv, hb, rfl⟩ := (UpdateShell_eq_thrown_iff L _ _ c _).1 h5
            obtain ⟨sec, hsec, hkey⟩ := (PTree.field_eq_some_iff c _ _ v).1 hv
            refine ⟨.shell, sec, v, hsec, hb, rfl, ?_, ?_, Or.inl ⟨hkey, ?_⟩⟩
            · intro m hm
              cases m <;> first | exact absurd hm (by decide) | simp [Services.record, merged]
            · intro m hm
              cases m <;> first | exact absurd hm (by decide) | simp [Services.record, merged]
            · simp [Services.record]
          | done s5 =>
            rw [h5] at h
            simp only [Exec.andThen] at h
            obtain ⟨-, rfl⟩ := (UpdateShell_eq_done_iff L _ _ c).1 h5
            cases h6 : UpdateSocks L _ c with
            | thrown t6 e6 =>
              rw [h6] at h
              simp only [Exec.andThen] at h
              injection h with ht he
              subst ht he
              obtain ⟨rfl, v, hv, hb, rfl⟩ := (UpdateSocks_eq_thrown_iff L _ _ c _).1 h6
              obtain ⟨sec, hsec, hkey⟩ := (PTree.field_eq_some_iff c _ _ v).1 hv
              refine ⟨.socks, sec, v, hsec, hb, rfl, ?_, ?_, Or.inl ⟨hkey, ?_⟩⟩
              · intro m hm
                cases m <;> first | exact absurd hm (by decide) | simp [Services.record, merged]
              · intro m hm
                cases m <;> first | exact absurd hm (by decide) | simp [Services.record, merged]
              · simp [Services.record]
            | done s6 =>
              rw [h6] at h
              simp only [Exec.andThen] at h
              obtain ⟨-, rfl⟩ := (UpdateSocks_eq_done_iff L _ _ c).1 h6
              cases h7 : UpdateCopy L _ c with
              | thrown t7 e7 =>
                rw [h7] at h
                injection h with ht he
                subst ht he
                obtain ⟨rfl, v, hv, hb, rfl⟩ := (UpdateCopy_eq_thrown_iff L _ _ c _).1 h7
                obtain ⟨sec, hsec, hkey⟩ := (PTree.field_eq_some_iff c _ _ v).1 hv
                refine ⟨.copy, sec, v, hsec, hb, rfl, ?_, ?_, Or.inl ⟨hkey, ?_⟩⟩
                · intro m hm
                  cases m <;> first | exact absurd hm (by decide) | simp [Services.record, merged]
                · intro m hm
                  cases m <;> exact absurd hm (by decide)
                · simp [Services.record]
              | done s7 =>
                rw [h7] at h
                cases h

/-- C16: when `Update` throws, some present section holds the unparseable
value; the sections before it in the order of `Update` have their merged
records, the sections after it their prior records; the failing section has
its prior record when its `enable` failed, and its merged `enable` with its
prior `gateway_ports` when a listener's `gateway_ports` failed.  And `Update`
is not atomic: some failing update leaves a state other than the one it
started from. -/
theorem Update_fails_partway :
    (∀ (L : Locale) (s t : Services) (c : PTree) (e : ptree_bad_data),
      Update L s c = .thrown t e →
      ∃ (n : ServiceName) (sec v : PTree),
        c.get_child_optional n.key = some sec ∧ L.get_bool v.data = none ∧ e = ⟨v.data⟩ ∧
        (∀ m : ServiceName, m.order < n.order → t.record m = (merged L s c).record m) ∧
        (∀ m : ServiceName, n.order < m.order → t.record m = s.record m) ∧
        ((sec.get_child_optional "enable" = some v ∧ t.record n = s.record n) ∨
         (n.is_listener = true ∧ sec.get_child_optional "gateway_ports" = some v ∧
          (t.record n).enabled = ((merged L s c).record n).enabled ∧
          (t.record n).gateway_ports = (s.record n).gateway_ports))) ∧
    (∃ (L : Locale) (s t : Services) (c : PTree) (e : ptree_bad_data),
      Update L s c = .thrown t e ∧ t ≠ s) :=
  ⟨Update_thrown_cases,
    ⟨classic, copyOnly,
      { copyOnly with datagram_forwarder_ := ⟨true⟩, stream_listener_ := ⟨true, false⟩ },
      gatewayMaybe, ⟨"maybe"⟩, by decide, by decide⟩⟩

/-- C16 on a concrete input: the update throws at `stream_listener.gateway_ports`
with `datagram_forwarder` and the listener's `enable` already written and `copy`
not yet. -/
theorem Update_fails_partway_witness :
    Update classic copyOnly gatewayMaybe =
      .thrown { copyOnly with datagram_forwarder_ := ⟨true⟩,
                              stream_listener_ := ⟨true, false⟩ } ⟨"maybe"⟩ ∧
    ∃ (n : ServiceName) (sec v : PTree),
      gatewayMaybe.get_child_optional n.key = some sec ∧
      classic.get_bool v.data = none ∧ (⟨"maybe"⟩ : ptree_bad_data) = ⟨v.data⟩ ∧
      (∀ m : ServiceName, m.order < n.order →
        ({ copyOnly with datagram_forwarder_ := ⟨true⟩,
                         stream_listener_ := ⟨true, false⟩ } : Services).record m =
          (merged classic copyOnly gatewayMaybe).record m) ∧
      (∀ m : ServiceName, n.order < m.order →
        ({ copyOnly with datagram_forwarder_ := ⟨true⟩,
                         stream_listener_ := ⟨true, false⟩ } : Services).record m =
          copyOnly.record m) ∧
      ((sec.get_child_optional "enable" = some v ∧
        ({ copyOnly with datagram_forwarder_ := ⟨true⟩,
                         stream_listener_ := ⟨true, false⟩ } : Services).record n =
          copyOnly.record n) ∨
       (n.is_listener = true ∧ sec.get_child_optional "gateway_ports" = some v ∧
        (({ copyOnly with datagram_forwarder_ := ⟨true⟩,
                          stream_listener_ := ⟨true, false⟩ } : Services).record n).enabled =
          ((merged classic copyOnly gatewayMaybe).record n).enabled ∧
        (({ copyOnly with datagram_forwarder_ := ⟨true⟩,
                          stream_listener_ := ⟨true, false⟩ } :
            Services).record n).gateway_ports =
          (copyOnly.record n).gateway_ports)) :=
  ⟨by decide,
    Update_fails_partway.1 classic copyOnly _ gatewayMaybe ⟨"maybe"⟩ (by decide)⟩

/-! ## The last writer of a gateway flag -/

theorem Locale.mergeBool_eq_bind (L : Locale) (v : Option PTree) (old : Bool) :
    L.mergeBool v old = ((v.bind (fun n => L.get_bool n.data)).getD old) := by
  cases v <;> rfl

/-- One returning call leaves a listener's gateway flag at the value the call
writes, or as it was when the call writes none. -/
theorem Call.run_gateway_ports (L : Locale) (n : ServiceName) (hl : n.is_listener = true)
    (k : Call) (s t : Services) (h : k.run L s = .done t) :
    (t.record n).gateway_ports =
      some ((k.gateway_value L n).getD
        (match n with
         | .datagram_listener => s.datagram_listener_.gateway_ports
         | _ => s.stream_listener_.gateway_ports)) := by
  cases k with
  | Update pt =>
    obtain ⟨-, rfl⟩ := (Update_eq_done_iff L s t pt).1 h
    cases n <;> simp only [ServiceName.is_listener, Bool.false_eq_true] at hl <;>
      simp [Services.record, merged, Call.gateway_value, ServiceName.key,
        Locale.mergeBool_eq_bind]
  | SetGatewayPorts g =>
    injection h with h
    subst h
    cases n <;> simp only [ServiceName.is_listener, Bool.false_eq_true] at hl <;> rfl

theorem listener_gateway_ports (n : ServiceName) (hl : n.is_listener = true) (s : Services) :
    (s.record n).gateway_ports =
      some (match n with
        | .datagram_listener => s.datagram_listener_.gateway_ports
        | _ => s.stream_listener_.gateway_ports) := by
  cases n <;> simp only [ServiceName.is_listener, Bool.false_eq_true] at hl <;> rfl

theorem run_calls_append (L : Locale) (pre rest : List Call) (s : Services) :
    run_calls L s (pre ++ rest) = (run_calls L s pre).andThen (fun u => run_calls L u rest) := by
  induction pre generalizing s with
  | nil => rfl
  | cons k ks ih =>
    show (k.run L s).andThen (fun u => run_calls L u (ks ++ rest)) = _
    cases hk : k.run L s with
    | done u => simp only [run_calls, hk, Exec.andThen, ih]
    | thrown u e => simp only [run_calls, hk, Exec.andThen]

/-- Calls that write no gateway flag for the listener leave it as it was. -/
theorem run_calls_keeps_gateway_ports (L : Locale) (n : ServiceName)
    (hl : n.is_listener = true) (post : List Call)
    (hp : ∀ k ∈ post, k.gateway_value L n = none) (s t : Services)
    (h : run_calls L s post = .done t) :
    (t.record n).gateway_ports = (s.record n).gateway_ports := by
  induction post generalizing s with
  | nil =>
    injection h with h
    rw [h]
  | cons k ks ih =>
    obtain ⟨u, hu, ht⟩ := (Exec.andThen_eq_done_iff _ _ _).1 h
    rw [ih (fun k' hk' => hp k' (List.mem_cons_of_mem _ hk')) u ht,
      Call.run_gateway_ports L n hl k s u hu, hp k (List.mem_cons_self _ _),
      listener_gateway_ports n hl s]
    rfl

/-- C17: `SetGatewayPorts(g)` followed by a successful `Update` whose listener
section carries `gateway_ports = h` leaves that listener's flag at `h`; and
over any sequence of returning calls, a listener's flag ends at the value
written by the last call that is a `SetGatewayPorts` or an `Update` specifying
its `gateway_ports`. -/
theorem gateway_last_writer_wins (L : Locale) (n : ServiceName)
    (hl : n.is_listener = true) :
    (∀ (s t : Services) (g h : Bool) (c sec v : PTree),
      c.get_child_optional n.key = some sec →
      sec.get_child_optional "gateway_ports" = some v → L.get_bool v.data = some h →
      Update L (SetGatewayPorts s g) c = .done t →
      ((SetGatewayPorts s g).record n).gateway_ports = some g ∧
      (t.record n).gateway_ports = some h) ∧
    (∀ (s t : Services) (pre post : List Call) (k : Call) (x : Bool),
      run_calls L s (pre ++ k :: post) = .done t →
      k.gateway_value L n = some x →
      (∀ k' ∈ post, k'.gateway_value L n = none) →
      (t.record n).gateway_ports = some x) := by
  constructor
  · intro s t g h c sec v hsec hv hb hu
    constructor
    · cases n <;> simp only [ServiceName.is_listener, Bool.false_eq_true] at hl <;> rfl
    · have hk : (Call.Update c).gateway_value L n = some h := by
        simp [Call.gateway_value, PTree.field_of_section_some _ _ _ _ hsec, hv, hb]
      rw [Call.run_gateway_ports L n hl (.Update c) _ t hu, hk]
      rfl
  · intro s t pre post k x h hk hp
    rw [run_calls_append] at h
    obtain ⟨u, -, h⟩ := (Exec.andThen_eq_done_iff _ _ _).1 h
    obtain ⟨w, hw, h⟩ := (Exec.andThen_eq_done_iff _ _ _).1 h
    rw [run_calls_keeps_gateway_ports L n hl post hp w t h,
      Call.run_gateway_ports L n hl k u w hw, hk]
    rfl

/-- C17 on a concrete input: the override to true, then a configuration with
`stream_listener.gateway_ports = false`, then `{shell: {enable: true}}`: the
flag ends false. -/
theorem gateway_last_writer_wins_witness :
    Update classic (SetGatewayPorts copyOnly true) listenerNoGateway =
      .done { copyOnly with datagram_listener_ := ⟨false, true⟩,
                            stream_listener_ := ⟨true, false⟩ } ∧
    (((SetGatewayPorts copyOnly true).record .stream_listener).gateway_ports = some true ∧
      (({ copyOnly with datagram_listener_ := ⟨false, true⟩,
                        stream_listener_ := ⟨true, false⟩ } :
          Services).record .stream_listener).gateway_ports = some false) ∧
    run_calls classic copyOnly
        ([.SetGatewayPorts true] ++ .Update listenerNoGateway :: [.Update shellOn]) =
      .done { copyOnly with datagram_listener_ := ⟨false, true⟩,
                            shell_ := ⟨true, "", ""⟩,
                            stream_listener_ := ⟨true, false⟩ } ∧
    (({ copyOnly with datagram_listener_ := ⟨false, true⟩,
                      shell_ := ⟨true, "", ""⟩,
                      stream_listener_ := ⟨true, false⟩ } :
        Services).record .stream_listener).gateway_ports = some false :=
  ⟨by decide,
    (gateway_last_writer_wins classic .stream_listener rfl).1 copyOnly _ true false
      listenerNoGateway
      (.node "" [("enable", leaf "true"), ("gateway_ports", leaf "false")]) (leaf "false")
      rfl rfl (by decide) (by decide),
    by decide,
    (gateway_last_writer_wins classic .stream_listener rfl).2 copyOnly _
      [.SetGatewayPorts true] [.Update shellOn] (.Update listenerNoGateway) false
      (by decide) (by decide) (by decide)⟩

end config

/-! ## Registry consistency -/

theorem SSFServer.consistent_init : SSFServer.init.consistent := by
  simp [SSFServer.consistent, SSFServer.init, SSFServer.keys]

theorem SSFServer.consistent_AddDemux (self : SSFServer) (d : DemuxPtr)
    (m : ServiceManagerPtr) (h : self.consistent) : (self.AddDemux d m).consistent := by
  obtain ⟨h1, h2, h3⟩ := h
  have hk : (self.AddDemux d m).keys = self.keys.filter (fun x => x != d) ++ [d] := by
    simp [SSFServer.AddDemux, SSFServer.keys, List.filter_map, Function.comp_def]
  refine ⟨?_, ?_, ?_⟩
  · intro x
    rw [hk]
    by_cases hd : d ∈ self.p_fiber_demuxes_
    · have e : (self.AddDemux d m).p_fiber_demuxes_ = self.p_fiber_demuxes_ := by
        simp only [SSFServer.AddDemux, if_pos hd]
      rw [e]
      simp only [List.mem_append, List.mem_filter, List.mem_singleton, bne_iff_ne, ne_eq]
      constructor
      · intro hx
        by_cases hxd : x = d
        · exact Or.inr hxd
        · exact Or.inl ⟨(h1 x).1 hx, hxd⟩
      · rintro (⟨hx, -⟩ | rfl)
        · exact (h1 x).2 hx
        · exact hd
    · have e : (self.AddDemux d m).p_fiber_demuxes_ = self.p_fiber_demuxes_ ++ [d] := by
        simp only [SSFServer.AddDemux, if_neg hd]
      rw [e]
      simp only [List.mem_append, List.mem_filter, List.mem_singleton, bne_iff_ne, ne_eq]
      constructor
      · rintro (hx | rfl)
        · by_cases hxd : x = d
          · exact Or.inr hxd
          · exact Or.inl ⟨(h1 x).1 hx, hxd⟩
        · exact Or.inr rfl
      · rintro (⟨hx, -⟩ | rfl)
        · exact Or.inl ((h1 x).2 hx)
        · exact Or.inr rfl
  · by_cases hd : d ∈ self.p_fiber_demuxes_
    · simpa [SSFServer.AddDemux, if_pos hd] using h2
    · simp only [SSFServer.AddDemux, if_neg hd]
      exact List.Nodup.append h2 (List.nodup_singleton d) (by simpa using hd)
  · rw [hk]
    refine List.Nodup.append (h3.filter _) (List.nodup_singleton d) ?_
    simp [List.mem_filter]

theorem SSFServer.consistent_RemoveDemux (self : SSFServer) (d : DemuxPtr)
    (h : self.consistent) : (self.RemoveDemux d).consistent := by
  obtain ⟨h1, h2, h3⟩ := h
  have hk : (self.RemoveDemux d).keys = self.keys.filter (fun x => x != d) := by
    simp [SSFServer.RemoveDemux, SSFServer.keys, List.filter_map, Function.comp_def]
  refine ⟨?_, h2.filter _, ?_⟩
  · intro x
    rw [hk]
    simp [SSFServer.RemoveDemux, List.mem_filter, h1]
  · rw [hk]
    exact h3.filter _

theorem SSFServer.consistent_RemoveAllDemuxes (self : SSFServer) :
    self.RemoveAllDemuxes.consistent := by
  simp [SSFServer.consistent, SSFServer.RemoveAllDemuxes, SSFServer.keys]

theorem SSFServer.consistent_step (self : SSFServer) (st : ServerStep)
    (h : self.consistent) : (self.step st).consistent := by
  cases st with
  | AddDemux d m => exact SSFServer.consistent_AddDemux self d m h
  | RemoveDemux d => exact SSFServer.consistent_RemoveDemux self d h
  | RemoveAllDemuxes => exact SSFServer.consistent_RemoveAllDemuxes self
  | Stop => exact SSFServer.consistent_RemoveAllDemuxes _

theorem SSFServer.consistent_foldl (steps : List ServerStep) (self : SSFServer)
    (h : self.consistent) : (steps.foldl SSFServer.step self).consistent := by
  induction steps generalizing self with
  | nil => exact h
  | cons st rest ih => exact ih _ (SSFServer.consistent_step self st h)

/-- C12: in every state reached from construction by `AddDemux`,
`RemoveDemux`, `RemoveAllDemuxes` and `Stop` steps, the Sessions of
`p_fiber_demuxes_` are exactly the keys of `p_service_managers_`. -/
theorem registry_consistent (steps : List ServerStep) :
    (∀ d, d ∈ (SSFServer.after steps).p_fiber_demuxes_ ↔
      d ∈ (SSFServer.after steps).p_service_managers_.map Prod.fst) ∧
    (SSFServer.after steps).p_fiber_demuxes_.Nodup ∧
    ((SSFServer.after steps).p_service_managers_.map Prod.fst).Nodup :=
  SSFServer.consistent_foldl steps SSFServer.init SSFServer.consistent_init

/-! ## Stop and removal -/

/-- What `Stop` leaves: the acceptor cancelled, the registry empty, every
Service Manager that was registered told to stop and every Session that was
live told to close. -/
theorem SSFServer.Stop_post (self : SSFServer) :
    self.Stop.acceptor_cancelled = true ∧
    self.Stop.p_fiber_demuxes_ = [] ∧ self.Stop.p_service_managers_ = [] ∧
    (∀ kv ∈ self.p_service_managers_, kv.2 ∈ self.Stop.stop_signals) ∧
    (∀ d ∈ self.p_fiber_demuxes_, d ∈ self.Stop.close_signals) := by
  refine ⟨rfl, rfl, rfl, ?_, ?_⟩
  · intro kv hkv
    simp only [SSFServer.Stop, SSFServer.RemoveAllDemuxes, List.mem_append, List.mem_map]
    exact Or.inr ⟨kv, hkv, rfl⟩
  · intro d hd
    simp only [SSFServer.Stop, SSFServer.RemoveAllDemuxes, List.mem_append]
    exact Or.inr hd

theorem SSFServer.RemoveDemux_of_absent (self : SSFServer) (d : DemuxPtr)
    (hs : d ∉ self.p_fiber_demuxes_) (hk : d ∉ self.keys) : self.RemoveDemux d = self := by
  have e1 : self.p_fiber_demuxes_.filter (fun x => x != d) = self.p_fiber_demuxes_ := by
    rw [List.filter_eq_self]
    intro x hx
    simpa using fun e : x = d => hs (e ▸ hx)
  have e2 : self.p_service_managers_.filter (fun kv => kv.1 != d) =
      self.p_service_managers_ := by
    rw [List.filter_eq_self]
    intro kv hkv
    simpa using fun e : kv.1 = d => hk (e ▸ List.mem_map_of_mem Prod.fst hkv)
  have e3 : self.p_service_managers_.filter (fun kv => kv.1 == d) = [] := by
    rw [List.filter_eq_nil_iff]
    intro kv hkv
    simpa using fun e : kv.1 = d => hk (e ▸ List.mem_map_of_mem Prod.fst hkv)
  simp only [SSFServer.RemoveDemux, e1, e2, e3, List.map_nil, List.append_nil]

/-- C14: `Stop` twice leaves the state `Stop` once leaves, with the registry
empty and no further signal sent; and `RemoveDemux` of a Session that is
absent from the registry, be it after `Stop` or after an earlier removal,
leaves the state unchanged. -/
theorem stop_and_removal_idempotent :
    (∀ s : SSFServer, s.Stop.Stop = s.Stop ∧
      s.Stop.p_fiber_demuxes_ = [] ∧ s.Stop.p_service_managers_ = []) ∧
    (∀ (s : SSFServer) (d : DemuxPtr), d ∉ s.p_fiber_demuxes_ →
      d ∉ s.p_service_managers_.map Prod.fst → s.RemoveDemux d = s) ∧
    (∀ (s : SSFServer) (d : DemuxPtr), s.Stop.RemoveDemux d = s.Stop) ∧
    (∀ (s : SSFServer) (d : DemuxPtr),
      (s.RemoveDemux d).RemoveDemux d = s.RemoveDemux d) := by
  refine ⟨?_, SSFServer.RemoveDemux_of_absent, ?_, ?_⟩
  · intro s
    refine ⟨?_, rfl, rfl⟩
    simp [SSFServer.Stop, SSFServer.RemoveAllDemuxes]
  · intro s d
    exact SSFServer.RemoveDemux_of_absent _ d (by simp [SSFServer.Stop,
      SSFServer.RemoveAllDemuxes]) (by simp [SSFServer.Stop, SSFServer.RemoveAllDemuxes,
      SSFServer.keys])
  · intro s d
    exact SSFServer.RemoveDemux_of_absent _ d
      (by simp [SSFServer.RemoveDemux, List.mem_filter])
      (by simp [SSFServer.RemoveDemux, SSFServer.keys, List.mem_filter])

/-- C14 on a concrete input: with Sessions 1 and 2 registered, removing the
absent Session 3 changes nothing, and a second `Stop` changes nothing. -/
theorem stop_and_removal_idempotent_witness :
    SSFServer.after [.AddDemux 1 10, .AddDemux 2 20] =
      { p_fiber_demuxes_ := [1, 2], p_service_managers_ := [(1, 10), (2, 20)],
        acceptor_cancelled := false, stop_signals := [], close_signals := [] } ∧
    (SSFServer.after [.AddDemux 1 10, .AddDemux 2 20]).RemoveDemux 3 =
      SSFServer.after [.AddDemux 1 10, .AddDemux 2 20] ∧
    (SSFServer.after [.AddDemux 1 10, .AddDemux 2 20]).Stop =
      { p_fiber_demuxes_ := [], p_service_managers_ := [],
        acceptor_cancelled := true, stop_signals := [10, 20], close_signals := [1, 2] } ∧
    (SSFServer.after [.AddDemux 1 10, .AddDemux 2 20]).Stop.Stop =
      (SSFServer.after [.AddDemux 1 10, .AddDemux 2 20]).Stop :=
  ⟨by decide,
    stop_and_removal_idempotent.2.1 (SSFServer.after [.AddDemux 1 10, .AddDemux 2 20]) 3
      (by decide) (by decide),
    by decide,
    (stop_and_removal_idempotent.1 (SSFServer.after [.AddDemux 1 10, .AddDemux 2 20])).1⟩

end ssf
